import Mathlib

/-!
# Verification of the DYANA evidence-to-labels core

Shallow embedding, in Lean 4, of the parts of the `dyana` Python repository
that the frozen claims are about:

* `dyana/decode/constraints.py` — default penalties, `base_transition_matrix`,
  `expand_state_space`, `default_min_durations`;
* `dyana/decode/decoder.py` — `viterbi_decode`, `expand_scores`,
  `decode_with_constraints`;
* `dyana/core/resample.py` — `_validate_factor`, `upsample_hold_last`,
  `downsample`, `to_canonical_grid`;
* `dyana/decode/fusion.py` — `_check_timebases`, `fuse_bundle_to_scores`;
* `dyana/eval/metrics.py` — `boundary_f1`;
* `dyana/evidence/base.py` — `EvidenceTrack.__post_init__` validation;
* `dyana/eval/tuning.py` — `compute_delta_report`.

Conventions of the embedding:

* IEEE doubles are modelled by exact rationals `ℚ`; log-domain quantities,
  which may be `-inf`, are modelled by `WithBot ℚ` (`⊥` is `-inf`;
  `⊥ + x = ⊥` matches `-inf + finite = -inf`).  `NaN` never arises in the
  modelled code paths (the source forbids NaNs defensively).
* `np.log`, and the logistic used for `logit` tracks, are transcendental
  functions; they are carried as abstract function parameters
  (`logf`, `sigf` : `ℚ → ℚ`).  Every claim under scrutiny is an identity
  that holds for an arbitrary such function.
* Python exceptions are modelled by `Except String`.
* numpy arrays of shape `(T,)` / `(T, K)` are modelled by the sum type
  `NDArr` below; numpy arrays are rectangular, so 2-D theorems may assume
  equal row lengths where needed.
-/

set_option allowUnsafeReducibility true
set_option synthInstance.maxSize 1024
set_option linter.unusedVariables false
attribute [semireducible] Rat.add Rat.mul Rat.sub Rat.div Rat.neg Rat.inv Rat.blt

namespace Dyana

/-- Log-domain value: a finite rational score or `-inf` (`⊥`). -/
abbrev LogVal := WithBot ℚ

/-! ## `dyana/decode/state_space.py` -/

/-- `state_space.STATE_NAMES`: the ordered closed state set. -/
def STATE_NAMES : List String := ["SIL", "A", "B", "OVL", "LEAK"]

/-- `state_space.state_index`: position of a state name in `STATE_NAMES`
(the source raises on an unknown name; the embedding returns the list
length `5` there, which is never hit on the modelled code paths). -/
def state_index (n : String) : ℕ := STATE_NAMES.findIdx (fun m => m = n)

/-- `state_space.num_states()`. -/
def num_states : ℕ := STATE_NAMES.length

/-! ## `dyana/decode/constraints.py` — default penalties -/

def STAY_REWARD : LogVal := ((0 : ℚ) : LogVal)
def GENERIC_SWITCH_PENALTY : LogVal := ((-3 : ℚ) : LogVal)
def SPEAKER_SWITCH_PENALTY : ℚ := -6
def SIL_EXIT_PENALTY : LogVal := ((-1 : ℚ) : LogVal)
def SIL_ENTER_PENALTY : LogVal := ((-1/2 : ℚ) : LogVal)
def LEAK_FORBID : LogVal := ⊥
def LEAK_ENTER_PENALTY : ℚ := -2
def LEAK_EXIT_TO_SIL_PENALTY : LogVal := ((-1/2 : ℚ) : LogVal)
def LEAK_TO_AB_FORBID : LogVal := ⊥
def LEAK_TO_OVL_PENALTY : LogVal := ((-5 : ℚ) : LogVal)

def MIN_IPU_FRAMES : ℕ := 3
def MIN_SIL_FRAMES : ℕ := 2

/-! Matrix-update helpers mirroring the numpy in-place assignments.
Matrices are total functions `ℕ → ℕ → LogVal`; the source arrays are
5×5 and only indices below 5 are ever read. -/

/-- `mat[i, j] = v`. -/
def mset (m : ℕ → ℕ → LogVal) (i j : ℕ) (v : LogVal) : ℕ → ℕ → LogVal :=
  fun a b => if a = i ∧ b = j then v else m a b

/-- `for i in range(S): mat[i, i] = 0`. -/
def msetDiag (m : ℕ → ℕ → LogVal) (S : ℕ) : ℕ → ℕ → LogVal :=
  fun a b => if a = b ∧ a < S then STAY_REWARD else m a b

/-- `mat[i, :] += v`. -/
def maddRow (m : ℕ → ℕ → LogVal) (i : ℕ) (v : LogVal) : ℕ → ℕ → LogVal :=
  fun a b => if a = i then m a b + v else m a b

/-- `mat[:, j] += v`. -/
def maddCol (m : ℕ → ℕ → LogVal) (j : ℕ) (v : LogVal) : ℕ → ℕ → LogVal :=
  fun a b => if b = j then m a b + v else m a b

/--
`constraints.base_transition_matrix` with the default `STATE_NAMES`
(so `name_to_idx` is SIL=0, A=1, B=2, OVL=3, LEAK=4) and tuning parameters
`ssp = speaker_switch_penalty`, `leb = leak_entry_bias`,
`ovlc = ovl_transition_cost`.  The update sequence follows the source
line by line: fill with the generic switch penalty, zero the diagonal,
speaker switch, `SIL→LEAK` forbid, OVL edges, leak entries/exits,
then the silence row/column adjustments and the final re-assertions.
-/
def base_transition_matrix (ssp leb ovlc : ℚ) : ℕ → ℕ → LogVal :=
  let m0 : ℕ → ℕ → LogVal := fun _ _ => GENERIC_SWITCH_PENALTY
  let m1 := msetDiag m0 5
  let m2 := mset m1 1 2 ((ssp : ℚ) : LogVal)
  let m3 := mset m2 2 1 ((ssp : ℚ) : LogVal)
  let m4 := mset m3 0 4 LEAK_FORBID
  -- for other in ("SIL", "A", "B"): mat[ovl, idx] = ovlc; mat[idx, ovl] = ovlc
  let m5 := mset m4 3 0 ((ovlc : ℚ) : LogVal)
  let m6 := mset m5 0 3 ((ovlc : ℚ) : LogVal)
  let m7 := mset m6 3 1 ((ovlc : ℚ) : LogVal)
  let m8 := mset m7 1 3 ((ovlc : ℚ) : LogVal)
  let m9 := mset m8 3 2 ((ovlc : ℚ) : LogVal)
  let m10 := mset m9 2 3 ((ovlc : ℚ) : LogVal)
  -- for src_name in ("A", "B", "OVL"): mat[src, leak] = leb
  let m11 := mset m10 1 4 ((leb : ℚ) : LogVal)
  let m12 := mset m11 2 4 ((leb : ℚ) : LogVal)
  let m13 := mset m12 3 4 ((leb : ℚ) : LogVal)
  let m14 := mset m13 4 0 LEAK_EXIT_TO_SIL_PENALTY
  let m15 := mset m14 4 1 LEAK_TO_AB_FORBID
  let m16 := mset m15 4 2 LEAK_TO_AB_FORBID
  let m17 := mset m16 4 3 LEAK_TO_OVL_PENALTY
  let m18 := maddRow m17 0 SIL_EXIT_PENALTY
  let m19 := maddCol m18 0 SIL_ENTER_PENALTY
  let m20 := mset m19 0 0 STAY_REWARD
  let m21 := mset m20 0 4 LEAK_FORBID
  let m22 := mset m21 4 1 LEAK_TO_AB_FORBID
  mset m22 4 2 LEAK_TO_AB_FORBID

/-- The default base transition matrix (default `DecodeTuningParams`). -/
def base_transition_default : ℕ → ℕ → LogVal :=
  base_transition_matrix SPEAKER_SWITCH_PENALTY LEAK_ENTER_PENALTY (-3)

/-! ## `dyana/decode/constraints.py` — duration expansion -/

/-- `constraints.default_min_durations()`. -/
def default_min_durations : List (String × ℕ) :=
  [("SIL", MIN_SIL_FRAMES), ("A", MIN_IPU_FRAMES), ("B", MIN_IPU_FRAMES),
   ("OVL", MIN_IPU_FRAMES), ("LEAK", MIN_IPU_FRAMES)]

/-- `max(1, int(min_durations.get(name, 1)))`. -/
def dOf (md : List (String × ℕ)) (name : String) : ℕ :=
  max 1 ((md.lookup name).getD 1)

/-- The flattened expanded state list `[(base, 0), …, (base, d_base − 1), …]`
built in `expand_state_space` (base order is `STATE_NAMES` order). -/
def expanded_states (md : List (String × ℕ)) : List (String × ℕ) :=
  STATE_NAMES.flatMap (fun n => (List.range (dOf md n)).map (fun k => (n, k)))

/-- Base name of expanded index `i` (also the `collapse_map` entry). -/
def baseAt (md : List (String × ℕ)) (i : ℕ) : String :=
  ((expanded_states md).getD i ("", 0)).1

/-- Sub-state index of expanded index `i`. -/
def subAt (md : List (String × ℕ)) (i : ℕ) : ℕ :=
  ((expanded_states md).getD i ("", 0)).2

/--
Expanded transition matrix built by the fill loop of `expand_state_space`:
a non-final sub-state may only advance along its chain (`trans[i, i+1] = 0`);
a final sub-state may self-loop at cost 0, or enter the first sub-state of
any base at the base-matrix cost.  (In the source the self-loop assignment
comes last and overwrites the `dst_sub == 0` assignment when `d = 1`;
checking `j = i` first reproduces that overwrite.)
-/
def expTransOf (md : List (String × ℕ)) (baseTrans : ℕ → ℕ → LogVal)
    (i j : ℕ) : LogVal :=
  let sb := baseAt md i
  if subAt md i < dOf md sb - 1 then
    (if j = i + 1 then STAY_REWARD else ⊥)
  else if j = i then STAY_REWARD
  else if subAt md j = 0 then baseTrans (state_index sb) (state_index (baseAt md j))
  else ⊥

/-! ## `dyana/decode/decoder.py` — Viterbi core

`viterbi_decode` runs the standard log-space DP.  States are modelled as
natural numbers below `S`; `np.argmax` (first maximum wins) is modelled by
a left fold over `range S` that replaces the accumulator only on a strict
increase. -/

/-- `np.argmax` over `S` values: lowest index attaining the maximum. -/
def argmaxN (S : ℕ) (f : ℕ → LogVal) : ℕ :=
  (List.range S).foldl (fun best j => if f best < f j then j else best) 0

/-- The DP table `dp[t, s]` of `viterbi_decode`:
`dp[0] = init + scores[0]`, and
`dp[t] = prev[bp[t], arange(S)] + scores[t]` where
`prev = dp[t-1][:, None] + transition` and `bp[t] = argmax(prev, axis=0)`. -/
def viterbiDP (S : ℕ) (A : ℕ → ℕ → LogVal) (initv : ℕ → LogVal)
    (E : ℕ → ℕ → LogVal) : ℕ → ℕ → LogVal
  | 0, s => initv s + E 0 s
  | t + 1, s =>
      let prev := fun q => viterbiDP S A initv E t q + A q s
      prev (argmaxN S prev) + E (t + 1) s

/-- The backpointer `bp[t, s]` (meaningful for `t ≥ 1`). -/
def viterbiBP (S : ℕ) (A : ℕ → ℕ → LogVal) (initv : ℕ → LogVal)
    (E : ℕ → ℕ → LogVal) (t s : ℕ) : ℕ :=
  argmaxN S (fun q => viterbiDP S A initv E (t - 1) q + A q s)

/-- `last_state = argmax(dp[-1])` for a `T`-frame problem. -/
def viterbiLast (S : ℕ) (A : ℕ → ℕ → LogVal) (initv : ℕ → LogVal)
    (E : ℕ → ℕ → LogVal) (T : ℕ) : ℕ :=
  argmaxN S (viterbiDP S A initv E (T - 1))

/-- The backtrace, counted from the end: `viterbiFrom … k` is the decoded
state at time `T - 1 - k` (`path[t-1] = bp[t, path[t]]` in the source). -/
def viterbiFrom (S : ℕ) (A : ℕ → ℕ → LogVal) (initv : ℕ → LogVal)
    (E : ℕ → ℕ → LogVal) (T : ℕ) : ℕ → ℕ
  | 0 => viterbiLast S A initv E T
  | k + 1 => viterbiBP S A initv E (T - 1 - k) (viterbiFrom S A initv E T k)

/-- Decoded state index at time `t` of the `T`-frame problem. -/
def viterbiAt (S : ℕ) (A : ℕ → ℕ → LogVal) (initv : ℕ → LogVal)
    (E : ℕ → ℕ → LogVal) (T t : ℕ) : ℕ :=
  viterbiFrom S A initv E T (T - 1 - t)

/-- The full decoded path of `viterbi_decode`, of length `T`.
(The source raises on `T = 0`; the embedding returns `[]` there.) -/
def viterbi_decode (S : ℕ) (A : ℕ → ℕ → LogVal) (initv : ℕ → LogVal)
    (E : ℕ → ℕ → LogVal) (T : ℕ) : List ℕ :=
  (List.range T).map (viterbiAt S A initv E T)

/-! ## `dyana/decode/decoder.py` — constraint-aware decoding -/

/-- Size of the expanded state space (`len(expanded_states)`). -/
def SxOf (md : List (String × ℕ)) : ℕ := (expanded_states md).length

/-- `expand_scores`: the expanded emission copies the base-state score onto
every sub-state of that base.  Emission scores are finite rationals
(shape `(T, 5)` arrays of doubles), given as a function of `(t, base)`. -/
def expandScoresOf (md : List (String × ℕ)) (E : ℕ → ℕ → ℚ)
    (t j : ℕ) : LogVal :=
  ((E t (state_index (baseAt md j)) : ℚ) : LogVal)

/-- Default initial base scores of `decode_with_constraints`:
zeros, except `init[LEAK] = -inf` (LEAK cannot initiate a sequence). -/
def initBaseDefault : ℕ → LogVal :=
  fun s => if s = 4 then ⊥ else STAY_REWARD

/-- Expanded initial scores: the base initial on the first sub-state of
each base, `-inf` on every other sub-state. -/
def initExpOf (md : List (String × ℕ)) (initBase : ℕ → LogVal)
    (i : ℕ) : LogVal :=
  if subAt md i = 0 then initBase (state_index (baseAt md i)) else ⊥

/--
`decode_with_constraints(log_scores)` with all optional arguments left at
their defaults (default minimum durations, default transition matrix,
default initial scores), returning the collapsed base-state names.
`T` is the number of frames (the source raises on `T = 0`).
-/
def decode_with_constraints (T : ℕ) (E : ℕ → ℕ → ℚ) : List String :=
  let md := default_min_durations
  (viterbi_decode (SxOf md) (expTransOf md base_transition_default)
      (initExpOf md initBaseDefault) (expandScoresOf md E) T).map (baseAt md)

end Dyana


namespace Dyana

/-! Abbreviations for the default decoding instance (default minimum
durations, default transition matrix, default initial scores). -/

/-- Expanded state count of the default instance. -/
def SxD : ℕ := SxOf default_min_durations

/-- Expanded transition matrix of the default instance. -/
def AxD : ℕ → ℕ → LogVal := expTransOf default_min_durations base_transition_default

/-- Expanded initial scores of the default instance. -/
def IxD : ℕ → LogVal := initExpOf default_min_durations initBaseDefault

/-- Expanded emissions of the default instance. -/
def ExD (E : ℕ → ℕ → ℚ) : ℕ → ℕ → LogVal := expandScoresOf default_min_durations E

/-- Decoded expanded-state index at frame `t` for the default instance. -/
def pathD (E : ℕ → ℕ → ℚ) (T t : ℕ) : ℕ := viterbiAt SxD AxD IxD (ExD E) T t

/-! ## Claim-level run predicates over decoded label lists

Each predicate is a computable Boolean checker whose body is exactly the
claim statement over the decoded sequence; `decide` of a bounded
quantifier keeps it executable. -/

/--
The claim of C2 as stated: every maximal run of a base state `s` in the
label list has length at least `d_s`.  A maximal run is a stretch
`[t0, t1]` of equal labels whose left neighbour differs (or `t0 = 0`)
and whose right neighbour differs (or `t1` is the last index).
-/
def min_durations_respected (md : List (String × ℕ)) (l : List String) : Bool :=
  decide (∀ t0, t0 < l.length → ∀ t1, t1 < l.length → t0 ≤ t1 →
    (t0 = 0 ∨ l.getD (t0 - 1) "" ≠ l.getD t0 "") →
    (∀ k, k ≤ t1 - t0 → l.getD (t0 + k) "" = l.getD t0 "") →
    (t1 + 1 = l.length ∨ l.getD (t1 + 1) "" ≠ l.getD t1 "") →
    dOf md (l.getD t0 "") ≤ t1 + 1 - t0)

/--
The interior-run variant (claim C2 amended): every maximal run that is
followed by a different label (so does not touch the end of the sequence)
has length at least `d_s`.
-/
def min_durations_respected_interior (md : List (String × ℕ)) (l : List String) : Bool :=
  decide (∀ t0, t0 < l.length → ∀ t1, t1 < l.length → t0 ≤ t1 →
    (t0 = 0 ∨ l.getD (t0 - 1) "" ≠ l.getD t0 "") →
    (∀ k, k ≤ t1 - t0 → l.getD (t0 + k) "" = l.getD t0 "") →
    t1 + 1 < l.length → l.getD (t1 + 1) "" ≠ l.getD t1 "" →
    dOf md (l.getD t0 "") ≤ t1 + 1 - t0)

/--
Claim C5: no adjacent pair `SIL → LEAK`, `LEAK → A`, or `LEAK → B`
anywhere in the label list.
-/
def no_forbidden_adjacency (l : List String) : Bool :=
  decide (∀ t, t < l.length - 1 →
    ¬(l.getD t "" = "SIL" ∧ l.getD (t + 1) "" = "LEAK") ∧
    ¬(l.getD t "" = "LEAK" ∧ l.getD (t + 1) "" = "A") ∧
    ¬(l.getD t "" = "LEAK" ∧ l.getD (t + 1) "" = "B"))

/-! ## `dyana/core/resample.py`

Arrays of shape `(T,)` or `(T, K)` are modelled by `NDArr`; `resample.py`
also imports `CANONICAL_HOP_SECONDS` from `dyana/core/timebase.py`, but
that module only defines `CANONICAL_HOP_S = 0.01` (timebase.py line 12) and
never the imported name, so importing `dyana.core.resample` raises
`ImportError` at run time.  The intended value, used by the whole code base
and its tests, is the canonical 10 ms hop; the embedding models it as
`1/100`. -/

/-- Aggregation mode (`AggKind = Literal["mean", "max"]`). -/
inductive Agg where
  | mean : Agg
  | max : Agg
deriving DecidableEq

/-- A 1-D `(T,)` or 2-D `(T, K)` floating array with exact entries. -/
inductive NDArr where
  | one : List ℚ → NDArr
  | two : List (List ℚ) → NDArr
deriving DecidableEq

/-- `arr.shape[0]`. -/
def shape0 : NDArr → ℕ
  | .one l => l.length
  | .two m => m.length

/-- `arr.ndim`. -/
def ndim : NDArr → ℕ
  | .one _ => 1
  | .two _ => 2

/-- `arr.shape[1]` of a 2-D array (numpy arrays are rectangular, so the
first row's length is the column count; `0` for 1-D arrays). -/
def cols : NDArr → ℕ
  | .one _ => 0
  | .two m => (m.getD 0 []).length

/-- All entries of the array, in row-major order. -/
def entries : NDArr → List ℚ
  | .one l => l
  | .two m => m.flatMap (fun r => r)

/-- Modelled from the spec and `timebase.py` line 12: the canonical 10 ms
hop that `resample.py` tries (and fails) to import as
`CANONICAL_HOP_SECONDS`. -/
def CANONICAL_HOP_SECONDS : ℚ := 1 / 100

/-- `resample._validate_factor`: the hop ratio must be a positive integer
within `1e-12`. -/
def validate_factor (src_hop_s target_hop_s : ℚ) : Except String ℕ :=
  if src_hop_s ≤ 0 ∨ target_hop_s ≤ 0 then
    .error "hop sizes must be positive"
  else
    let factor := src_hop_s / target_hop_s
    let rounded : ℤ := round factor
    if (1 : ℚ) / 10 ^ 12 < |factor - (rounded : ℚ)| then
      .error "Resampling requires an integer ratio between hops."
    else if rounded ≤ 0 then
      .error "Invalid resampling factor computed"
    else
      .ok rounded.toNat

/-- `resample.upsample_hold_last`: zero-order hold; each frame (1-D entry
or 2-D row) is repeated `factor` times (`np.repeat`, axis 0). -/
def upsample_hold_last (values : NDArr) (src_hop_s target_hop_s : ℚ) :
    Except String NDArr :=
  (validate_factor src_hop_s target_hop_s).bind fun factor =>
    if factor = 1 then .ok values
    else
      match values with
      | .one l => .ok (.one (l.flatMap (List.replicate factor)))
      | .two m => .ok (.two (m.flatMap (List.replicate factor)))

/-- Block `j` of size `factor` (`arr.reshape(new_len, factor, …)[j]`). -/
def blockAt (factor j : ℕ) (l : List α) : List α :=
  (l.drop (j * factor)).take factor

/-- `np.mean` of a block. -/
def mean1 (xs : List ℚ) : ℚ := xs.sum / (xs.length : ℚ)

/-- `np.max` of a (nonempty) block. -/
def max1 (xs : List ℚ) : ℚ :=
  match xs with
  | [] => 0
  | x :: t => t.foldl max x

/-- Aggregate a 1-D block. -/
def agg1 : Agg → List ℚ → ℚ
  | .mean, xs => mean1 xs
  | .max, xs => max1 xs

/-- Elementwise mean of a block of rows (`reshape(new_len, factor, K).mean(axis=1)`). -/
def meanRowsBlock (rows : List (List ℚ)) : List ℚ :=
  match rows with
  | [] => []
  | r :: rest =>
      (rest.foldl (fun acc x => acc.zipWith (· + ·) x) r).map
        (fun v => v / ((rest.length + 1 : ℕ) : ℚ))

/-- Elementwise max of a block of rows. -/
def maxRowsBlock (rows : List (List ℚ)) : List ℚ :=
  match rows with
  | [] => []
  | r :: rest => rest.foldl (fun acc x => acc.zipWith max x) r

/-- Aggregate a 2-D block of rows. -/
def aggRowsBlock : Agg → List (List ℚ) → List ℚ
  | .mean, rows => meanRowsBlock rows
  | .max, rows => maxRowsBlock rows

/-- `resample.downsample`: aggregate contiguous blocks of `factor` frames;
requires exact divisibility. -/
def downsample (values : NDArr) (src_hop_s target_hop_s : ℚ) (agg : Agg) :
    Except String NDArr :=
  (validate_factor target_hop_s src_hop_s).bind fun factor =>
    if factor = 1 then .ok values
    else if shape0 values % factor ≠ 0 then
      .error "Length not divisible by factor for downsampling."
    else
      match values with
      | .one l =>
          .ok (.one ((List.range (l.length / factor)).map
            (fun j => agg1 agg (blockAt factor j l))))
      | .two m =>
          .ok (.two ((List.range (m.length / factor)).map
            (fun j => aggRowsBlock agg (blockAt factor j m))))

/-- `resample.to_canonical_grid` (the `semantics` argument is passed
through but unused, as in the source). -/
def to_canonical_grid (values : NDArr) (src_hop_s : ℚ) (semantics : String)
    (downsample_agg : Option Agg) : Except String NDArr :=
  if src_hop_s = CANONICAL_HOP_SECONDS then .ok values
  else if CANONICAL_HOP_SECONDS < src_hop_s then
    upsample_hold_last values src_hop_s CANONICAL_HOP_SECONDS
  else
    match downsample_agg with
    | none => .error "downsample_agg must be provided when downsampling to canonical grid"
    | some a => downsample values src_hop_s CANONICAL_HOP_SECONDS a

/-! ## `dyana/decode/fusion.py`

`np.log` and the logistic are abstract (`logf`, `sigf`); everything else is
exact.  A fusion-level track carries the fields fusion reads: the timebase
hop, the values array, and the semantics tag.  A bundle carries its
timebase (hop and optional bound frame count) and its name-keyed tracks in
insertion order.  The source report dictionary fields derived from file
I/O (`params`, `baseline` path/sha1/mtime) appear only in the tuning
embedding below where the claims need them. -/

def LOG_EPS : ℚ := 1 / 1000000
def W_SPEECH : ℚ := 1
def W_DIAR : ℚ := 1
def W_OVL : ℚ := 3 / 2
def W_LEAK : ℚ := 1
def W_LEAK_SIL_BIAS : ℚ := 1 / 2
def LEAK_BASELINE_PENALTY : ℚ := -3
def W_PRIOR : ℚ := 2 / 5
def OVL_BONUS : ℚ := 2 / 5
def LEAKAGE_TRACK_NAME : String := "leakage_likelihood"

/-- `np.clip(p, LOG_EPS, 1 - LOG_EPS)`. -/
def clipQ (p : ℚ) : ℚ := max LOG_EPS (min (1 - LOG_EPS) p)

/-- The fields of an `EvidenceTrack` that fusion reads. -/
structure FusTrack where
  hop : ℚ
  values : NDArr
  semantics : String
deriving DecidableEq

/-- An `EvidenceBundle` as fusion sees it: bundle timebase hop, the
optional `n_frames` bound on the timebase, and the insertion-ordered
name-to-track mapping. -/
structure Bundle where
  hop : ℚ
  nFrames : Option ℕ
  tracks : List (String × FusTrack)
deriving DecidableEq

/-- `bundle.get(name)` (dict lookup; keys are unique in a dict, the
embedding takes the first match). -/
def bundle_get (b : Bundle) (n : String) : Option FusTrack :=
  b.tracks.lookup n

/-- `TimeBase.is_canonical`: `math.isclose(hop, 0.01, abs_tol=1e-12)`. -/
def is_canonical_hop (h : ℚ) : Bool :=
  |h - CANONICAL_HOP_SECONDS| ≤ (1 : ℚ) / 10 ^ 12

/-- The per-track loop of `fusion._check_timebases`: each track's hop must
match the bundle hop within `1e-12`, and all track lengths must agree with
the accumulated frame count (seeded by the bundle timebase `n_frames`). -/
def check_tracks (bhop : ℚ) : List (String × FusTrack) → Option ℕ → Except String (Option ℕ)
  | [], n => .ok n
  | (_, tr) :: rest, n =>
      if ¬ (|tr.hop - bhop| ≤ (1 : ℚ) / 10 ^ 12) then
        .error "Track hop does not match bundle hop."
      else
        let n' := n.getD (shape0 tr.values)
        if shape0 tr.values ≠ n' then
          .error "Track length mismatches bundle length."
        else
          check_tracks bhop rest (some n')

/-- `fusion._check_timebases`: `tb.require_canonical()`, then the track
loop, then the empty-bundle check (`n_frames is None`). -/
def check_timebases (b : Bundle) : Except String ℕ :=
  if ¬ is_canonical_hop b.hop then
    .error "TimeBase is not canonical."
  else
    match check_tracks b.hop b.tracks b.nFrames with
    | .error e => .error e
    | .ok none => .error "EvidenceBundle is empty; cannot fuse without tracks."
    | .ok (some n) => .ok n

/-- `fusion._require_prob_or_logit`: probability values pass through, logit
values go through the logistic `sigf`, anything else is an error.  (A 2-D
array in a probability role would crash the source at the later broadcast
assignment; the embedding reports it as an error directly.) -/
def require_prob_or_logit (sigf : ℚ → ℚ) (tr : FusTrack) : Except String (List ℚ) :=
  match tr.values with
  | .one l =>
      if tr.semantics = "probability" then .ok l
      else if tr.semantics = "logit" then .ok (l.map sigf)
      else .error "Track must have semantics probability or logit."
  | .two _ => .error "Track in a probability role must be 1-D."

/-- Parse the optional `prior_ab` track into per-frame A/B offsets
(`prior_offset_a`, `prior_offset_b` in the source; scalars broadcast). -/
def parse_prior (T : ℕ) (tr? : Option FusTrack) :
    Except String ((ℕ → ℚ) × (ℕ → ℚ)) :=
  match tr? with
  | none => .ok (fun _ => 0, fun _ => 0)
  | some tr =>
      if tr.semantics ≠ "score" then
        .error "prior_ab track must use semantics score (additive log offset)."
      else
        match tr.values with
        | .one vals =>
            if vals.length = 2 then
              .ok (fun _ => vals.getD 0 0, fun _ => vals.getD 1 0)
            else if vals.length = 1 then
              .ok (fun _ => vals.getD 0 0, fun _ => vals.getD 0 0)
            else .error "prior_ab 1-D values must be length 1 or 2."
        | .two m =>
            if cols (.two m) = 2 then
              if m.length ≠ T then
                .error "prior_ab length mismatches bundle length."
              else
                .ok (fun t => (m.getD t []).getD 0 0, fun t => (m.getD t []).getD 1 0)
            else .error "prior_ab must have shape Tx2 or 2 for A/B offsets."

/-- One row (frame) of the fused `(T, 5)` score array. -/
structure ScoreRow where
  sil : ℚ
  a : ℚ
  b : ℚ
  ovl : ℚ
  leak : ℚ
deriving DecidableEq

/-- `fusion.fuse_bundle_to_scores`, parameterised by the abstract `np.log`
(`logf`) and logistic (`sigf`). -/
def fuse_bundle_to_scores (logf sigf : ℚ → ℚ) (bundle : Bundle) :
    Except String (List ScoreRow) :=
  (check_timebases bundle).bind fun T =>
      (match bundle_get bundle "vad" with
       | some tr => require_prob_or_logit sigf tr
       | none => .ok (List.replicate T (1 / 2))).bind fun pSpeech =>
      (match bundle_get bundle "diar_a" with
       | some tr => require_prob_or_logit sigf tr
       | none => .ok (List.replicate T (1 / 2))).bind fun pA =>
      (match bundle_get bundle "diar_b" with
       | some tr => require_prob_or_logit sigf tr
       | none => .ok (List.replicate T (1 / 2))).bind fun pB =>
      (parse_prior T (bundle_get bundle "prior_ab")).bind fun prior =>
      (match (bundle_get bundle LEAKAGE_TRACK_NAME).orElse
          (fun _ => bundle_get bundle "leak") with
       | some tr => (require_prob_or_logit sigf tr).bind
            (fun pl => .ok (fun t => logf (clipQ (pl.getD t 0))))
       | none => (.ok (fun _ => (0 : ℚ)) : Except String (ℕ → ℚ))).bind fun logLeak =>
      .ok ((List.range T).map fun t =>
        let ls := logf (clipQ (pSpeech.getD t 0))
        let lns := logf (clipQ (1 - pSpeech.getD t 0))
        let la := logf (clipQ (pA.getD t 0))
        let lb := logf (clipQ (pB.getD t 0))
        { sil := W_SPEECH * lns
          a := W_SPEECH * ls + W_DIAR * la + W_PRIOR * prior.1 t
          b := W_SPEECH * ls + W_DIAR * lb + W_PRIOR * prior.2 t
          ovl := W_SPEECH * ls + W_OVL * (la + lb) + OVL_BONUS
          leak := W_LEAK * logLeak t + W_LEAK_SIL_BIAS * lns + LEAK_BASELINE_PENALTY })

/-- Whether an `Except` computation succeeded (fusion "accepts" its
input exactly when this is `true`). -/
def exceptOk {ε α : Type} : Except ε α → Bool
  | .ok _ => true
  | .error _ => false

/-! ## `dyana/evidence/base.py` — `EvidenceTrack` construction

`EvidenceTrack.__post_init__` validation, in source order.  The dtype and
finiteness checks of the source (`np.issubdtype(..., np.floating)`,
`np.isfinite(...).all()`) are vacuous over exact rationals and are noted
but not modelled; numpy rules out ragged, 0-dimensional or 3-dimensional `values`
before the dataclass sees them, matching `NDArr`. -/

def SEMANTICS_VALUES : List String := ["probability", "score", "logit"]

def PROB_TOL : ℚ := 1 / 1000

/-- A validated `EvidenceTrack` (the fields the dataclass stores). -/
structure EvidenceTrackV where
  name : String
  hop : ℚ
  nFrames : Option ℕ
  values : NDArr
  semantics : String
  confidence : Option NDArr
deriving DecidableEq

/-- The confidence-array checks of `__post_init__` (shape agreement and
the `[0, 1]` tolerance band), in source order. -/
def validate_confidence (values c : NDArr) : Except String Unit :=
  if shape0 c ≠ shape0 values then
    .error "EvidenceTrack.confidence T mismatch."
  else if ndim values = 2 ∧ ¬ (ndim c = 2 ∧ cols c = cols values) then
    .error "EvidenceTrack.confidence K mismatch."
  else if ndim values = 1 ∧ ndim c ≠ 1 then
    .error "EvidenceTrack.confidence for 1-D values must be 1-D."
  else if ¬ ((entries c).all fun e => decide (-PROB_TOL ≤ e) && decide (e ≤ 1 + PROB_TOL)) then
    .error "EvidenceTrack.confidence must be in unit range."
  else
    .ok ()

/-- `EvidenceTrack.__post_init__`: semantics tag, non-empty time axis,
confidence checks, probability range, and the `timebase.n_frames`
agreement, in source order. -/
def mk_evidence_track (name : String) (hop : ℚ) (nFrames : Option ℕ)
    (values : NDArr) (semantics : String) (confidence : Option NDArr) :
    Except String EvidenceTrackV :=
  if semantics ∉ SEMANTICS_VALUES then
    .error "EvidenceTrack semantics must be one of probability, score, logit."
  else if shape0 values = 0 then
    .error "EvidenceTrack.values must have T greater than 0."
  else
    match (match confidence with
           | some c => validate_confidence values c
           | none => .ok ()) with
    | .error e => .error e
    | .ok _ =>
        if semantics = "probability" ∧
            ¬ ((entries values).all fun e => decide (-PROB_TOL ≤ e) && decide (e ≤ 1 + PROB_TOL)) then
          .error "EvidenceTrack probability values fall outside the unit range."
        else
          match nFrames with
          | some n =>
              if shape0 values ≠ n then
                .error "EvidenceTrack length does not match timebase n_frames."
              else .ok ⟨name, hop, nFrames, values, semantics, confidence⟩
          | none => .ok ⟨name, hop, nFrames, values, semantics, confidence⟩

/-! ## `dyana/eval/tuning.py` — `compute_delta_report`

Scorecard rows are modelled by id, tier and a name-keyed metric map
(`row.get(key, 0.0)` becomes a defaulted lookup).  The report fields that
come from file I/O (`params`, and the baseline path / SHA-1 / mtime) and
the mean-aggregation `summary` are outside the claims and are not carried;
the point at issue is that the source report has only `rows` and
`warnings` — it never creates `failed` or `failures` entries. -/

def METRIC_KEYS : List String :=
  ["boundary_f1_20", "boundary_f1_50", "micro_ipus_per_min", "speaker_switches_per_min"]

def EASY_BOUNDARY_DROP_THRESHOLD : ℚ := -(1 / 20)
def EASY_SWITCH_INCREASE_FACTOR : ℚ := 6 / 5
def EASY_MICRO_IPU_INCREASE_FACTOR : ℚ := 6 / 5
def SUSPICIOUS_SWITCH_WORSE_FACTOR : ℚ := 3 / 2
def SUSPICIOUS_MICRO_WORSE_FACTOR : ℚ := 3 / 2

/-- A scorecard result row (`{"id": …, "tier": …, metric: value, …}`). -/
structure ScRow where
  id : String
  tier : String
  metrics : List (String × ℚ)
deriving DecidableEq

/-- `float(row.get(key, 0.0))`. -/
def getMetric (r : ScRow) (k : String) : ℚ := (r.metrics.lookup k).getD 0

/-- `_index_by_id` lookup: a Python dict comprehension keeps the last row
with a given id. -/
def byId (rows : List ScRow) (i : String) : Option ScRow :=
  rows.reverse.find? (fun r => r.id == i)

/-- One per-item delta row: for each metric key the
`(baseline, current, delta)` triple written as `key_baseline`,
`key_current`, `key_delta` in the source dict. -/
structure DeltaRow where
  id : String
  tier : String
  deltas : List (String × (ℚ × ℚ × ℚ))
deriving DecidableEq

def drowBase (r : DeltaRow) (k : String) : ℚ := ((r.deltas.lookup k).getD (0, 0, 0)).1
def drowCur (r : DeltaRow) (k : String) : ℚ := ((r.deltas.lookup k).getD (0, 0, 0)).2.1
def drowDelta (r : DeltaRow) (k : String) : ℚ := ((r.deltas.lookup k).getD (0, 0, 0)).2.2

/-- The per-item row built in the ids loop of `compute_delta_report`. -/
def delta_row (b c : ScRow) : DeltaRow :=
  { id := c.id
    tier := c.tier
    deltas := METRIC_KEYS.map fun k =>
      (k, (getMetric b k, getMetric c k, getMetric c k - getMetric b k)) }

/-- `sorted(set(baseline_by_id) & set(current_by_id))`. -/
def sorted_common_ids (baseline current : List ScRow) : List String :=
  (((baseline.map (·.id)).filter
      (fun i => (current.map (·.id)).contains i)).dedup).mergeSort (fun a b => a ≤ b)

/-- The delta report: the source dict carries `params`, `baseline`
(path, sha1, mtime), `rows`, `summary` and `warnings`; the parts the
guardrail claims concern are `rows` and `warnings`, and there is no
`failed` flag or `failures` list in the dict. -/
structure DeltaReport where
  rows : List DeltaRow
  warnings : List String
deriving DecidableEq

/-- The three easy-tier guardrail checks of `compute_delta_report`, in
source order, for one easy row (each hit appends one warning). -/
def easy_warnings (r : DeltaRow) : List String :=
  (if drowDelta r "boundary_f1_20" < EASY_BOUNDARY_DROP_THRESHOLD then
    ["easy regression: boundary_f1_20 drop too large for " ++ r.id] else []) ++
  (if max (drowBase r "speaker_switches_per_min") ((1 : ℚ) / 10 ^ 9) *
      EASY_SWITCH_INCREASE_FACTOR < drowCur r "speaker_switches_per_min" then
    ["easy regression: switches increase too large for " ++ r.id] else []) ++
  (if max (drowBase r "micro_ipus_per_min") ((1 : ℚ) / 10 ^ 9) *
      EASY_MICRO_IPU_INCREASE_FACTOR < drowCur r "micro_ipus_per_min" then
    ["easy regression: micro-IPU rate increase too large for " ++ r.id] else [])

/-- The hard-tier suspicious-improvement check for one hard row. -/
def hard_warnings (r : DeltaRow) : List String :=
  if 0 < drowDelta r "boundary_f1_20" ∧
      (max (drowBase r "speaker_switches_per_min") ((1 : ℚ) / 10 ^ 9) *
          SUSPICIOUS_SWITCH_WORSE_FACTOR < drowCur r "speaker_switches_per_min" ∨
        max (drowBase r "micro_ipus_per_min") ((1 : ℚ) / 10 ^ 9) *
          SUSPICIOUS_MICRO_WORSE_FACTOR < drowCur r "micro_ipus_per_min") then
    ["suspicious improvement: hard boundary improved but instability worsened for " ++ r.id]
  else []

/-- `tuning.compute_delta_report` restricted to its pure content: the
per-item delta rows over the sorted id intersection, and the warnings the
easy/hard guardrail loops accumulate. -/
def compute_delta_report (baseline current : List ScRow) : DeltaReport :=
  let per_item := (sorted_common_ids baseline current).filterMap fun i =>
    match byId baseline i, byId current i with
    | some b, some c => some (delta_row b c)
    | _, _ => none
  { rows := per_item
    warnings :=
      ((per_item.filter (fun r => r.tier == "easy")).flatMap easy_warnings) ++
        ((per_item.filter (fun r => r.tier == "hard")).flatMap hard_warnings) }

/-! ## `dyana/eval/metrics.py` — `boundary_f1`

Both boundary arrays are sorted ascending (`np.sort`); hypothesis
boundaries are scanned in order; each picks, among the unmatched reference
boundaries within tolerance, the one closest to it (Python `min` with a
key returns the first minimum, i.e. ties go to the lowest index). -/

/-- The result dict of `boundary_f1`. -/
structure BoundaryF1 where
  precision : ℚ
  rcl : ℚ
  f1 : ℚ
  tp : ℕ
  fp : ℕ
  fn : ℕ
deriving DecidableEq

/-- `np.sort` (ascending). -/
def sortQ (l : List ℚ) : List ℚ := l.mergeSort (fun a b => a ≤ b)

/-- `np.where(np.abs(ref - h) <= tol)` intersected with the unmatched
mask: candidate reference indices, ascending. -/
def bf1_candidates (r : List ℚ) (used : List Bool) (tol x : ℚ) : List ℕ :=
  (List.range r.length).filter
    (fun i => decide (|r.getD i 0 - x| ≤ tol) && !(used.getD i false))

/-- `min(candidates, key=lambda i: abs(ref[i] - h))`: first minimum. -/
def bf1_pick (r : List ℚ) (used : List Bool) (tol x : ℚ) : Option ℕ :=
  match bf1_candidates r used tol x with
  | [] => none
  | c :: cs =>
      some (cs.foldl
        (fun best i => if |r.getD i 0 - x| < |r.getD best 0 - x| then i else best) c)

/-- The matching loop over hypothesis boundaries, threading the
used-reference mask and the true-positive count. -/
def bf1_loop (r : List ℚ) (tol : ℚ) : List ℚ → List Bool → ℕ → List Bool × ℕ
  | [], used, tp => (used, tp)
  | x :: hs, used, tp =>
      match bf1_pick r used tol x with
      | none => bf1_loop r tol hs used tp
      | some best => bf1_loop r tol hs (used.set best true) (tp + 1)

/-- `metrics.boundary_f1`. -/
def boundary_f1 (ref_boundaries_s hyp_boundaries_s : List ℚ) (tol_s : ℚ) :
    BoundaryF1 :=
  let r := sortQ ref_boundaries_s
  let h := sortQ hyp_boundaries_s
  let tp := (bf1_loop r tol_s h (List.replicate r.length false) 0).2
  let fp := h.length - tp
  let fn := r.length - tp
  let prec : ℚ := if 0 < tp + fp then (tp : ℚ) / ((tp + fp : ℕ) : ℚ) else 0
  let rcl : ℚ := if 0 < tp + fn then (tp : ℚ) / ((tp + fn : ℕ) : ℚ) else 0
  let f1 : ℚ := if 0 < prec + rcl then 2 * prec * rcl / (prec + rcl) else 0
  ⟨prec, rcl, f1, tp, fp, fn⟩

/-! ## Generic facts about the Viterbi recursion

These lemmas capture exactly what the run-length and forbidden-transition
invariants need: the argmax attains the maximum and stays in range, and a
finite (`≠ ⊥`) DP value forces the chosen predecessor and its transition to
be finite as well. -/

lemma foldl_best_le (f : ℕ → LogVal) :
    ∀ (l : List ℕ) (b : ℕ),
      f b ≤ f (l.foldl (fun best j => if f best < f j then j else best) b) ∧
      ∀ j ∈ l, f j ≤ f (l.foldl (fun best j => if f best < f j then j else best) b) := by
  intro l
  induction l with
  | nil => intro b; exact ⟨le_refl _, by simp⟩
  | cons x xs ih =>
      intro b
      simp only [List.foldl_cons]
      by_cases h : f b < f x
      · simp only [if_pos h]
        refine ⟨le_trans (le_of_lt h) (ih x).1, ?_⟩
        intro j hj
        rcases List.mem_cons.mp hj with rfl | hj
        · exact (ih j).1
        · exact (ih x).2 j hj
      · simp only [if_neg h]
        refine ⟨(ih b).1, ?_⟩
        intro j hj
        rcases List.mem_cons.mp hj with rfl | hj
        · exact le_trans (not_lt.mp h) (ih b).1
        · exact (ih b).2 j hj

lemma foldl_best_lt (S : ℕ) (f : ℕ → LogVal) :
    ∀ (l : List ℕ) (b : ℕ), b < S → (∀ j ∈ l, j < S) →
      l.foldl (fun best j => if f best < f j then j else best) b < S := by
  intro l
  induction l with
  | nil => intro b hb _; simpa using hb
  | cons x xs ih =>
      intro b hb hl
      simp only [List.foldl_cons]
      by_cases h : f b < f x
      · simp only [if_pos h]
        exact ih x (hl x (by simp)) (fun j hj => hl j (by simp [hj]))
      · simp only [if_neg h]
        exact ih b hb (fun j hj => hl j (by simp [hj]))

lemma argmaxN_spec (S : ℕ) (f : ℕ → LogVal) : ∀ j < S, f j ≤ f (argmaxN S f) := by
  intro j hj
  exact (foldl_best_le f (List.range S) 0).2 j (List.mem_range.mpr hj)

lemma argmaxN_lt (S : ℕ) (hS : 0 < S) (f : ℕ → LogVal) : argmaxN S f < S := by
  exact foldl_best_lt S f (List.range S) 0 hS (fun j hj => List.mem_range.mp hj)

section ViterbiLemmas

variable (S : ℕ) (A : ℕ → ℕ → LogVal) (initv : ℕ → LogVal) (E : ℕ → ℕ → LogVal)

lemma viterbiDP_succ (t s : ℕ) :
    viterbiDP S A initv E (t + 1) s =
      viterbiDP S A initv E t (viterbiBP S A initv E (t + 1) s) +
        A (viterbiBP S A initv E (t + 1) s) s + E (t + 1) s := by
  simp only [viterbiDP, viterbiBP, Nat.add_sub_cancel]

lemma viterbiBP_lt (hS : 0 < S) (t s : ℕ) : viterbiBP S A initv E t s < S :=
  argmaxN_lt S hS _

lemma viterbiDP_succ_le (t s q : ℕ) (hq : q < S) :
    viterbiDP S A initv E t q + A q s ≤
      viterbiDP S A initv E t (viterbiBP S A initv E (t + 1) s) +
        A (viterbiBP S A initv E (t + 1) s) s := by
  have := argmaxN_spec S (fun q => viterbiDP S A initv E t q + A q s) q hq
  simpa [viterbiBP, Nat.add_sub_cancel] using this

lemma viterbiDP_ne_bot_succ (t s : ℕ)
    (h : viterbiDP S A initv E (t + 1) s ≠ ⊥) :
    viterbiDP S A initv E t (viterbiBP S A initv E (t + 1) s) ≠ ⊥ ∧
      A (viterbiBP S A initv E (t + 1) s) s ≠ ⊥ := by
  rw [viterbiDP_succ] at h
  have h1 : viterbiDP S A initv E t (viterbiBP S A initv E (t + 1) s) +
      A (viterbiBP S A initv E (t + 1) s) s ≠ ⊥ := by
    intro hb
    exact h (by rw [hb]; exact WithBot.bot_add _)
  constructor
  · intro hb; exact h1 (by rw [hb]; exact WithBot.bot_add _)
  · intro hb; exact h1 (by rw [hb]; exact WithBot.add_bot _)

lemma ne_bot_of_le {a b : LogVal} (ha : a ≠ ⊥) (hab : a ≤ b) : b ≠ ⊥ := by
  intro hb
  exact ha (le_bot_iff.mp (hb ▸ hab))

lemma viterbiDP_exists_ne_bot
    (hE : ∀ t s, E t s ≠ ⊥)
    (hInit : ∃ s, s < S ∧ initv s ≠ ⊥)
    (hOut : ∀ i, i < S → ∃ j, j < S ∧ A i j ≠ ⊥) :
    ∀ t, ∃ s, s < S ∧ viterbiDP S A initv E t s ≠ ⊥ := by
  intro t
  induction t with
  | zero =>
      obtain ⟨s, hs, hinit⟩ := hInit
      refine ⟨s, hs, ?_⟩
      show initv s + E 0 s ≠ ⊥
      simp [WithBot.add_eq_bot, hinit, hE 0 s]
  | succ t ih =>
      obtain ⟨q, hq, hdp⟩ := ih
      obtain ⟨j, hj, hA⟩ := hOut q hq
      refine ⟨j, hj, ?_⟩
      rw [viterbiDP_succ]
      have hqA : viterbiDP S A initv E t q + A q j ≠ ⊥ := by
        simp [WithBot.add_eq_bot, hdp, hA]
      have hle := viterbiDP_succ_le S A initv E t j q hq
      have hmax := ne_bot_of_le hqA hle
      simp [WithBot.add_eq_bot, hmax, hE (t + 1) j]

section ViterbiPath

variable (T : ℕ)
variable (hS : 0 < S)
variable (hE : ∀ t s, E t s ≠ ⊥)
variable (hInit : ∃ s, s < S ∧ initv s ≠ ⊥)
variable (hOut : ∀ i, i < S → ∃ j, j < S ∧ A i j ≠ ⊥)

include hE hInit hOut in
lemma viterbiLast_ne_bot :
    viterbiDP S A initv E (T - 1) (viterbiLast S A initv E T) ≠ ⊥ := by
  obtain ⟨q, hq, hdp⟩ := viterbiDP_exists_ne_bot S A initv E hE hInit hOut (T - 1)
  exact ne_bot_of_le hdp (argmaxN_spec S _ q hq)

include hS in
lemma viterbiFrom_lt : ∀ k, viterbiFrom S A initv E T k < S := by
  intro k
  cases k with
  | zero => exact argmaxN_lt S hS _
  | succ k => exact argmaxN_lt S hS _

include hE hInit hOut in
lemma viterbiFrom_ne_bot :
    ∀ k, k ≤ T - 1 →
      viterbiDP S A initv E (T - 1 - k) (viterbiFrom S A initv E T k) ≠ ⊥ := by
  intro k
  induction k with
  | zero =>
      intro _
      simpa using viterbiLast_ne_bot S A initv E T hE hInit hOut
  | succ k ih =>
      intro hk
      have hk' : k ≤ T - 1 := Nat.le_of_succ_le hk
      have hprev := ih hk'
      have hstep : T - 1 - k = (T - 1 - (k + 1)) + 1 := by omega
      rw [hstep] at hprev
      have := (viterbiDP_ne_bot_succ S A initv E (T - 1 - (k + 1))
        (viterbiFrom S A initv E T k) hprev).1
      have harg : viterbiFrom S A initv E T (k + 1) =
          viterbiBP S A initv E ((T - 1 - (k + 1)) + 1) (viterbiFrom S A initv E T k) := by
        show viterbiBP S A initv E (T - 1 - k) (viterbiFrom S A initv E T k) = _
        rw [hstep]
      rw [harg]
      exact this

include hS in
lemma viterbiAt_lt (t : ℕ) : viterbiAt S A initv E T t < S :=
  viterbiFrom_lt S A initv E T hS _

lemma viterbiAt_eq_bp (t : ℕ) (h : t + 1 ≤ T - 1) :
    viterbiAt S A initv E T t =
      viterbiBP S A initv E (t + 1) (viterbiAt S A initv E T (t + 1)) := by
  have h1 : T - 1 - t = (T - 1 - (t + 1)) + 1 := by omega
  show viterbiFrom S A initv E T (T - 1 - t) = _
  rw [h1]
  show viterbiBP S A initv E (T - 1 - (T - 1 - (t + 1))) _ = _
  have h2 : T - 1 - (T - 1 - (t + 1)) = t + 1 := by omega
  rw [h2]
  rfl

include hE hInit hOut in
lemma viterbiAt_dp_ne_bot (t : ℕ) (h : t ≤ T - 1) :
    viterbiDP S A initv E t (viterbiAt S A initv E T t) ≠ ⊥ := by
  have hk : T - 1 - t ≤ T - 1 := by omega
  have := viterbiFrom_ne_bot S A initv E T hE hInit hOut (T - 1 - t) hk
  have h2 : T - 1 - (T - 1 - t) = t := by omega
  rw [h2] at this
  exact this

include hE hInit hOut in
lemma viterbiAt_trans_ne_bot (t : ℕ) (h : t + 1 ≤ T - 1) :
    A (viterbiAt S A initv E T t) (viterbiAt S A initv E T (t + 1)) ≠ ⊥ := by
  have hdp := viterbiAt_dp_ne_bot S A initv E T hE hInit hOut (t + 1) h
  have := (viterbiDP_ne_bot_succ S A initv E t (viterbiAt S A initv E T (t + 1)) hdp).2
  rw [viterbiAt_eq_bp S A initv E T t h]
  exact this

include hE hInit hOut in
lemma viterbiAt_init_ne_bot : initv (viterbiAt S A initv E T 0) ≠ ⊥ := by
  have hdp := viterbiAt_dp_ne_bot S A initv E T hE hInit hOut 0 (by omega)
  intro hb
  apply hdp
  show initv (viterbiAt S A initv E T 0) + E 0 (viterbiAt S A initv E T 0) = ⊥
  rw [hb]
  exact WithBot.bot_add _

end ViterbiPath

end ViterbiLemmas

end Dyana

namespace Dyana

/-! ## The default expanded state space: concrete structural facts

All facts below are finite checks over the 14 expanded states
(`SIL×2, A×3, B×3, OVL×3, LEAK×3`) of the default minimum durations and
the default transition matrix, discharged by `decide`. -/

lemma SxOf_default : SxOf default_min_durations = 14 := by decide

lemma expandScoresOf_ne_bot (E : ℕ → ℕ → ℚ) (t s : ℕ) :
    expandScoresOf default_min_durations E t s ≠ ⊥ :=
  WithBot.coe_ne_bot

lemma default_init_exists :
    ∃ s, s < SxOf default_min_durations ∧
      initExpOf default_min_durations initBaseDefault s ≠ ⊥ := by decide

lemma default_out_exists :
    ∀ i, i < SxOf default_min_durations →
      ∃ j, j < SxOf default_min_durations ∧
        expTransOf default_min_durations base_transition_default i j ≠ ⊥ := by decide

/-- F1: a finite initial score forces the first sub-state of a chain. -/
lemma default_init_sub_zero :
    ∀ i, i < SxOf default_min_durations →
      initExpOf default_min_durations initBaseDefault i ≠ ⊥ →
      subAt default_min_durations i = 0 := by decide

/-- F2: along any finite expanded transition the sub-state index grows by
at most one. -/
lemma default_trans_sub_le :
    ∀ i, i < SxOf default_min_durations →
      ∀ j, j < SxOf default_min_durations →
        expTransOf default_min_durations base_transition_default i j ≠ ⊥ →
        subAt default_min_durations j ≤ subAt default_min_durations i + 1 := by decide

/-- F3: a finite expanded transition that changes the base state leaves
from the last sub-state of the source chain and enters the first sub-state
of the destination chain. -/
lemma default_trans_base_change :
    ∀ i, i < SxOf default_min_durations →
      ∀ j, j < SxOf default_min_durations →
        expTransOf default_min_durations base_transition_default i j ≠ ⊥ →
        baseAt default_min_durations i ≠ baseAt default_min_durations j →
        subAt default_min_durations j = 0 ∧
          subAt default_min_durations i =
            dOf default_min_durations (baseAt default_min_durations i) - 1 := by decide

/-- F5: no finite expanded transition realises `SIL → LEAK`, `LEAK → A`,
or `LEAK → B` on base states. -/
lemma default_trans_no_forbidden :
    ∀ i, i < SxOf default_min_durations →
      ∀ j, j < SxOf default_min_durations →
        expTransOf default_min_durations base_transition_default i j ≠ ⊥ →
        ¬(baseAt default_min_durations i = "SIL" ∧ baseAt default_min_durations j = "LEAK") ∧
        ¬(baseAt default_min_durations i = "LEAK" ∧ baseAt default_min_durations j = "A") ∧
        ¬(baseAt default_min_durations i = "LEAK" ∧ baseAt default_min_durations j = "B") := by decide

lemma default_dOf_pos (n : String) : 1 ≤ dOf default_min_durations n :=
  le_max_left _ _

end Dyana

namespace Dyana

lemma SxD_pos : 0 < SxD := by decide

lemma decode_eq_map (T : ℕ) (E : ℕ → ℕ → ℚ) :
    decode_with_constraints T E =
      (List.range T).map (fun t => baseAt default_min_durations (pathD E T t)) := by
  simp [decode_with_constraints, viterbi_decode, SxD, AxD, IxD, ExD, pathD, List.map_map]

lemma decode_length (T : ℕ) (E : ℕ → ℕ → ℚ) :
    (decode_with_constraints T E).length = T := by
  rw [decode_eq_map]; simp

lemma getD_map_range (f : ℕ → String) {T t : ℕ} (h : t < T) (d : String) :
    ((List.range T).map f).getD t d = f t := by
  rw [List.getD_eq_getElem?_getD, List.getElem?_map, List.getElem?_range h]
  rfl

lemma decode_getD (T : ℕ) (E : ℕ → ℕ → ℚ) {t : ℕ} (h : t < T) :
    (decode_with_constraints T E).getD t "" =
      baseAt default_min_durations (pathD E T t) := by
  rw [decode_eq_map, getD_map_range _ h]

end Dyana

namespace Dyana

section DecodeInvariants

variable (T : ℕ) (E : ℕ → ℕ → ℚ)

lemma pathD_lt (t : ℕ) : pathD E T t < SxD :=
  viterbiAt_lt SxD AxD IxD (ExD E) T SxD_pos t

lemma pathD_trans_ne_bot (t : ℕ) (h : t + 1 ≤ T - 1) :
    AxD (pathD E T t) (pathD E T (t + 1)) ≠ ⊥ :=
  viterbiAt_trans_ne_bot SxD AxD IxD (ExD E) T
    (expandScoresOf_ne_bot E) default_init_exists default_out_exists t h

lemma pathD_init_ne_bot : IxD (pathD E T 0) ≠ ⊥ :=
  viterbiAt_init_ne_bot SxD AxD IxD (ExD E) T
    (expandScoresOf_ne_bot E) default_init_exists default_out_exists

/-- The decoded expanded path enters every maximal base run at sub-state 0,
climbs by at most one sub-state per frame, and leaves a base only from the
last sub-state of its chain; hence an interior maximal run of base `s` is
at least `d_s` frames long. -/
lemma pathD_run_min_duration (t0 t1 : ℕ) (h01 : t0 ≤ t1) (ht1 : t1 + 1 < T)
    (hstart : t0 = 0 ∨
      baseAt default_min_durations (pathD E T (t0 - 1)) ≠
        baseAt default_min_durations (pathD E T t0))
    (hbody : ∀ k, k ≤ t1 - t0 →
      baseAt default_min_durations (pathD E T (t0 + k)) =
        baseAt default_min_durations (pathD E T t0))
    (hend : baseAt default_min_durations (pathD E T (t1 + 1)) ≠
        baseAt default_min_durations (pathD E T t1)) :
    dOf default_min_durations (baseAt default_min_durations (pathD E T t0)) ≤
      t1 + 1 - t0 := by
  -- Step A: the run starts at sub-state 0.
  have hsub0 : subAt default_min_durations (pathD E T t0) = 0 := by
    rcases hstart with rfl | hne
    · exact default_init_sub_zero _ (pathD_lt T E 0) (pathD_init_ne_bot T E)
    · by_cases h0 : t0 = 0
      · subst h0; simp at hne
      · have h1 : (t0 - 1) + 1 ≤ T - 1 := by omega
        have htr := pathD_trans_ne_bot T E (t0 - 1) h1
        have heq : (t0 - 1) + 1 = t0 := by omega
        rw [heq] at htr
        exact (default_trans_base_change _ (pathD_lt T E (t0 - 1)) _
          (pathD_lt T E t0) htr hne).1
  -- Step B: within the run the sub-state index is at most the offset.
  have hclimb : ∀ k, k ≤ t1 - t0 →
      subAt default_min_durations (pathD E T (t0 + k)) ≤ k := by
    intro k
    induction k with
    | zero => intro _; simpa using le_of_eq hsub0
    | succ k ih =>
        intro hk
        have hk' : k ≤ t1 - t0 := by omega
        have h1 : (t0 + k) + 1 ≤ T - 1 := by omega
        have htr := pathD_trans_ne_bot T E (t0 + k) h1
        have hle := default_trans_sub_le _ (pathD_lt T E (t0 + k)) _
          (pathD_lt T E (t0 + k + 1)) htr
        have hprev := ih hk'
        show subAt default_min_durations (pathD E T (t0 + k + 1)) ≤ k + 1
        omega
  -- Step C: the run leaves only from the last sub-state of its chain.
  have h1 : t1 + 1 ≤ T - 1 := by omega
  have htr := pathD_trans_ne_bot T E t1 h1
  have hlast := (default_trans_base_change _ (pathD_lt T E t1) _
    (pathD_lt T E (t1 + 1)) htr (Ne.symm hend)).2
  have ht : t0 + (t1 - t0) = t1 := by omega
  have hbase : baseAt default_min_durations (pathD E T t1) =
      baseAt default_min_durations (pathD E T t0) := by
    have hb := hbody (t1 - t0) le_rfl
    rwa [ht] at hb
  have hclimbt1 : subAt default_min_durations (pathD E T t1) ≤ t1 - t0 := by
    have hc := hclimb (t1 - t0) le_rfl
    rwa [ht] at hc
  rw [hbase] at hlast
  have hd := default_dOf_pos (baseAt default_min_durations (pathD E T t0))
  omega

end DecodeInvariants

end Dyana

namespace Dyana

/--
C2 (amended): for every finite emission score matrix of shape `(T, 5)`,
decoding with the default transition matrix, default initial distribution
and default minimum durations (SIL = 2 frames, A = B = OVL = LEAK = 3
frames) yields a base-state sequence in which every maximal run of a base
state `s` that is followed by a different state — that is, every maximal
run except the one touching the end of the sequence, which the frame
budget may truncate — has length at least `d_s`.
-/
theorem claim_C2_min_durations_interior :
    ∀ (T : ℕ) (E : ℕ → ℕ → ℚ),
      min_durations_respected_interior default_min_durations
        (decode_with_constraints T E) = true := by
  intro T E
  unfold min_durations_respected_interior
  rw [decide_eq_true_eq]
  intro t0 ht0 t1 ht1 h01 hstart hbody hint hend
  rw [decode_length] at ht0 ht1 hint
  have hstart' : t0 = 0 ∨
      baseAt default_min_durations (pathD E T (t0 - 1)) ≠
        baseAt default_min_durations (pathD E T t0) := by
    rcases hstart with h | h
    · exact Or.inl h
    · right
      rwa [decode_getD T E (show t0 - 1 < T by omega), decode_getD T E ht0] at h
  have hbody' : ∀ k, k ≤ t1 - t0 →
      baseAt default_min_durations (pathD E T (t0 + k)) =
        baseAt default_min_durations (pathD E T t0) := by
    intro k hk
    have h := hbody k hk
    rwa [decode_getD T E (show t0 + k < T by omega), decode_getD T E ht0] at h
  have hend' : baseAt default_min_durations (pathD E T (t1 + 1)) ≠
      baseAt default_min_durations (pathD E T t1) := by
    rwa [decode_getD T E hint, decode_getD T E ht1] at hend
  rw [decode_getD T E ht0]
  exact pathD_run_min_duration T E t0 t1 h01 hint hstart' hbody' hend'

set_option maxRecDepth 40000 in
/--
C2 counterexample: the claim as stated — *every* maximal run of a base
state meets its minimum duration — fails on a concrete input.  At `T = 1`
with all-zero scores the decoder returns `["SIL"]`: a maximal run of `SIL`
of length 1, below the default minimum duration `d_SIL = 2`.
-/
theorem claim_C2_counterexample :
    min_durations_respected default_min_durations
      (decode_with_constraints 1 (fun _ _ => 0)) = false := by decide

/--
C5: for every finite emission score matrix of shape `(T, 5)`, the
base-state sequence decoded with the default transition matrix and default
initial distribution never contains an adjacent pair `SIL` followed by
`LEAK`, nor `LEAK` followed by `A`, nor `LEAK` followed by `B` (those
transitions are `-inf` in the transition matrix).
-/
theorem claim_C5_no_forbidden_adjacency :
    ∀ (T : ℕ) (E : ℕ → ℕ → ℚ),
      no_forbidden_adjacency (decode_with_constraints T E) = true := by
  intro T E
  unfold no_forbidden_adjacency
  rw [decide_eq_true_eq]
  intro t ht
  rw [decode_length] at ht
  have ht1 : t + 1 ≤ T - 1 := by omega
  have htT : t < T := by omega
  have ht1T : t + 1 < T := by omega
  have htr := pathD_trans_ne_bot T E t ht1
  have hF := default_trans_no_forbidden _ (pathD_lt T E t) _
    (pathD_lt T E (t + 1)) htr
  rw [decode_getD T E htT, decode_getD T E ht1T]
  exact hF

end Dyana

namespace Dyana

/--
C3 counterexample: three entries of the spec table fail on the default
matrix.  The claim puts the enter-silence penalty `SEP = -0.5` on the row
leaving `SIL` and the exit-silence penalty `SXP = -1.0` on the column
entering `SIL`, and reads `LEAK → SIL` as `LXP` alone; the code applies
`SIL_EXIT_PENALTY = -1.0` to the `SIL` row, `SIL_ENTER_PENALTY = -0.5` to
the `SIL` column, and the column adjustment also hits `LEAK → SIL`.
So `SIL → A` is not `-3.5`, `A → SIL` is not `-4`, and `LEAK → SIL` is
not `-0.5`.
-/
theorem claim_C3_counterexample :
    ¬(base_transition_default 0 1 = ((-7/2 : ℚ) : LogVal) ∧
      base_transition_default 1 0 = ((-4 : ℚ) : LogVal) ∧
      base_transition_default 4 0 = ((-1/2 : ℚ) : LogVal)) := by decide

/--
C3 (amended): with default penalties the base 5×5 transition matrix
(indices SIL = 0, A = 1, B = 2, OVL = 3, LEAK = 4) is:
diagonal entries 0; `SIL → A/B/OVL = -3 + SXP = -4.0` (the exit-silence
penalty applies to the row leaving SIL); `A/B/OVL → SIL = -3 + SEP = -3.5`
(the enter-silence penalty applies to the column entering SIL);
`A ↔ B = SSP = -6`; `A/B ↔ OVL = OVLC = -3`; `A/B/OVL → LEAK = LEB = -2`;
`LEAK → SIL = LXP + SEP = -1.0`; `LEAK → OVL = LOV = -5`; and
`SIL → LEAK`, `LEAK → A`, `LEAK → B` are `-inf`.
-/
theorem claim_C3_base_transition_table :
    base_transition_default 0 0 = ((0 : ℚ) : LogVal) ∧
    base_transition_default 0 1 = ((-4 : ℚ) : LogVal) ∧
    base_transition_default 0 2 = ((-4 : ℚ) : LogVal) ∧
    base_transition_default 0 3 = ((-4 : ℚ) : LogVal) ∧
    base_transition_default 0 4 = ⊥ ∧
    base_transition_default 1 0 = ((-7/2 : ℚ) : LogVal) ∧
    base_transition_default 1 1 = ((0 : ℚ) : LogVal) ∧
    base_transition_default 1 2 = ((-6 : ℚ) : LogVal) ∧
    base_transition_default 1 3 = ((-3 : ℚ) : LogVal) ∧
    base_transition_default 1 4 = ((-2 : ℚ) : LogVal) ∧
    base_transition_default 2 0 = ((-7/2 : ℚ) : LogVal) ∧
    base_transition_default 2 1 = ((-6 : ℚ) : LogVal) ∧
    base_transition_default 2 2 = ((0 : ℚ) : LogVal) ∧
    base_transition_default 2 3 = ((-3 : ℚ) : LogVal) ∧
    base_transition_default 2 4 = ((-2 : ℚ) : LogVal) ∧
    base_transition_default 3 0 = ((-7/2 : ℚ) : LogVal) ∧
    base_transition_default 3 1 = ((-3 : ℚ) : LogVal) ∧
    base_transition_default 3 2 = ((-3 : ℚ) : LogVal) ∧
    base_transition_default 3 3 = ((0 : ℚ) : LogVal) ∧
    base_transition_default 3 4 = ((-2 : ℚ) : LogVal) ∧
    base_transition_default 4 0 = ((-1 : ℚ) : LogVal) ∧
    base_transition_default 4 1 = ⊥ ∧
    base_transition_default 4 2 = ⊥ ∧
    base_transition_default 4 3 = ((-5 : ℚ) : LogVal) ∧
    base_transition_default 4 4 = ((0 : ℚ) : LogVal) := by decide

end Dyana

namespace Dyana

/-! ## Resampling lemmas (claims C4 and C9) -/

lemma ok_bind {α β : Type} (a : α) (f : α → Except String β) :
    (Except.ok a : Except String α).bind f = f a := rfl

lemma validate_factor_mul (h : ℚ) (k : ℕ) (hh : 0 < h) (hk : 1 ≤ k) :
    validate_factor ((k : ℚ) * h) h = .ok k := by
  have hk0 : (0 : ℚ) < (k : ℚ) := by exact_mod_cast hk
  have hkh : 0 < (k : ℚ) * h := mul_pos hk0 hh
  unfold validate_factor
  rw [if_neg (by push_neg; constructor <;> linarith)]
  have hfac : (k : ℚ) * h / h = (k : ℚ) := by
    field_simp
  simp only [hfac]
  have hround : round ((k : ℚ)) = (k : ℤ) := by
    exact_mod_cast round_intCast (α := ℚ) (k : ℤ)
  rw [hround]
  rw [if_neg (by simp)]
  rw [if_neg (by push_neg; exact_mod_cast hk)]
  simp

lemma length_flatMap_replicate {α : Type} (k : ℕ) (l : List α) :
    (l.flatMap (List.replicate k)).length = k * l.length := by
  induction l with
  | nil => simp
  | cons a tl ih => simp [ih]; ring

lemma blockAt_flatMap_replicate {α : Type} (k : ℕ) (d : α) :
    ∀ (l : List α) (j : ℕ), j < l.length →
      blockAt k j (l.flatMap (List.replicate k)) = List.replicate k (l.getD j d) := by
  intro l
  induction l with
  | nil => intro j hj; simp at hj
  | cons a tl ih =>
      intro j hj
      cases j with
      | zero =>
          simp only [blockAt, Nat.zero_mul, List.drop_zero, List.flatMap_cons]
          rw [List.take_append_of_le_length (by simp)]
          simp [List.take_replicate]
      | succ j =>
          have hj' : j < tl.length := by simpa using hj
          simp only [blockAt, List.flatMap_cons]
          have hdrop : (List.replicate k a ++ tl.flatMap (List.replicate k)).drop ((j + 1) * k) =
              (tl.flatMap (List.replicate k)).drop (j * k) := by
            have : (j + 1) * k = (List.replicate k a).length + j * k := by
              simp [List.length_replicate]; ring
            rw [this, List.drop_append]
          rw [hdrop]
          exact ih j hj'

lemma map_getD_range {α : Type} (d : α) :
    ∀ (l : List α), (List.range l.length).map (fun j => l.getD j d) = l := by
  intro l
  induction l with
  | nil => simp
  | cons a tl ih =>
      rw [List.length_cons, List.range_succ_eq_map, List.map_cons, List.map_map,
        List.getD_cons_zero]
      have hmap : (List.range tl.length).map ((fun j => (a :: tl).getD j d) ∘ Nat.succ) =
          (List.range tl.length).map (fun j => tl.getD j d) := by
        apply List.map_congr_left
        intro j hj
        simp [List.getD_cons_succ]
      rw [hmap, ih]

lemma agg1_mean_replicate (k : ℕ) (hk : 1 ≤ k) (x : ℚ) :
    agg1 .mean (List.replicate k x) = x := by
  have hk0 : ((k : ℕ) : ℚ) ≠ 0 := by exact_mod_cast Nat.one_le_iff_ne_zero.mp hk
  simp [agg1, mean1, List.sum_replicate, nsmul_eq_mul]
  field_simp

end Dyana

namespace Dyana

lemma zipWith_add_map_mul (r : List ℚ) (c : ℚ) :
    (r.map (fun v => v * c)).zipWith (· + ·) r = r.map (fun v => v * (c + 1)) := by
  induction r with
  | nil => simp
  | cons a tl ih => simp [ih]; ring

lemma foldl_zipWith_replicate (m : ℕ) (r : List ℚ) :
    ∀ c : ℚ, (List.replicate m r).foldl (fun acc x => acc.zipWith (· + ·) x)
        (r.map (fun v => v * c)) = r.map (fun v => v * (c + m)) := by
  induction m with
  | zero => intro c; simp
  | succ m ih =>
      intro c
      rw [List.replicate_succ, List.foldl_cons, zipWith_add_map_mul, ih (c + 1)]
      apply List.map_congr_left
      intro v _
      push_cast
      ring

lemma meanRowsBlock_replicate (k : ℕ) (hk : 1 ≤ k) (r : List ℚ) :
    meanRowsBlock (List.replicate k r) = r := by
  obtain ⟨m, rfl⟩ : ∃ m, k = m + 1 := ⟨k - 1, by omega⟩
  rw [List.replicate_succ]
  have h1 : r.map (fun v => v * 1) = r := by simp
  have h2 := foldl_zipWith_replicate m r 1
  rw [h1] at h2
  simp only [meanRowsBlock, List.length_replicate, h2, List.map_map]
  have hm : ((m : ℚ) + 1) ≠ 0 := by positivity
  calc r.map ((fun v => v / ((m + 1 : ℕ) : ℚ)) ∘ fun v => v * (1 + (m : ℚ)))
      = r.map (fun v => v) := by
        apply List.map_congr_left
        intro v _
        simp only [Function.comp_apply]
        push_cast
        rw [add_comm 1 (m : ℚ)]
        exact mul_div_cancel_right₀ v (by positivity)
    _ = r := by simp

lemma upsample_mul_eq (v : NDArr) (h : ℚ) (k : ℕ) (hh : 0 < h) (hk2 : 2 ≤ k) :
    upsample_hold_last v ((k : ℚ) * h) h =
      .ok (match v with
           | .one l => .one (l.flatMap (List.replicate k))
           | .two m => .two (m.flatMap (List.replicate k))) := by
  unfold upsample_hold_last
  rw [validate_factor_mul h k hh (by omega), ok_bind]
  have hk1 : k ≠ 1 := by omega
  cases v <;> simp [hk1]

lemma downsample_flatMap_one (l : List ℚ) (h : ℚ) (k : ℕ) (hh : 0 < h) (hk2 : 2 ≤ k) :
    downsample (.one (l.flatMap (List.replicate k))) h ((k : ℚ) * h) .mean = .ok (.one l) := by
  unfold downsample
  rw [validate_factor_mul h k hh (by omega), ok_bind]
  have hk1 : k ≠ 1 := by omega
  have hk0 : 0 < k := by omega
  rw [if_neg hk1]
  have hlen : shape0 (.one (l.flatMap (List.replicate k))) = k * l.length := by
    show (l.flatMap (List.replicate k)).length = k * l.length
    exact length_flatMap_replicate k l
  rw [if_neg (by rw [hlen]; simp [Nat.mul_mod_right])]
  simp only []
  congr 1
  congr 1
  have hdiv : (l.flatMap (List.replicate k)).length / k = l.length := by
    rw [length_flatMap_replicate, Nat.mul_div_cancel_left _ hk0]
  rw [hdiv]
  have hblocks : (List.range l.length).map
      (fun j => agg1 .mean (blockAt k j (l.flatMap (List.replicate k)))) =
      (List.range l.length).map (fun j => l.getD j 0) := by
    apply List.map_congr_left
    intro j hj
    rw [blockAt_flatMap_replicate k (0 : ℚ) l j (List.mem_range.mp hj)]
    exact agg1_mean_replicate k (by omega) _
  rw [hblocks, map_getD_range]

lemma downsample_flatMap_two (m : List (List ℚ)) (h : ℚ) (k : ℕ) (hh : 0 < h) (hk2 : 2 ≤ k) :
    downsample (.two (m.flatMap (List.replicate k))) h ((k : ℚ) * h) .mean = .ok (.two m) := by
  unfold downsample
  rw [validate_factor_mul h k hh (by omega), ok_bind]
  have hk1 : k ≠ 1 := by omega
  have hk0 : 0 < k := by omega
  rw [if_neg hk1]
  have hlen : shape0 (.two (m.flatMap (List.replicate k))) = k * m.length := by
    show (m.flatMap (List.replicate k)).length = k * m.length
    exact length_flatMap_replicate k m
  rw [if_neg (by rw [hlen]; simp [Nat.mul_mod_right])]
  simp only []
  congr 1
  congr 1
  have hdiv : (m.flatMap (List.replicate k)).length / k = m.length := by
    rw [length_flatMap_replicate, Nat.mul_div_cancel_left _ hk0]
  rw [hdiv]
  have hblocks : (List.range m.length).map
      (fun j => aggRowsBlock .mean (blockAt k j (m.flatMap (List.replicate k)))) =
      (List.range m.length).map (fun j => m.getD j []) := by
    apply List.map_congr_left
    intro j hj
    rw [blockAt_flatMap_replicate k ([] : List ℚ) m j (List.mem_range.mp hj)]
    exact meanRowsBlock_replicate k (by omega) _
  rw [hblocks, map_getD_range]

/--
C9: for every finite 1-D or 2-D array `x` and every positive integer
factor `k` (hops `k·h` and `h` in exact integer ratio `k`), upsampling by
zero-order hold with factor `k` and then downsampling the result by factor
`k` with mean aggregation returns an array equal to `x`.
-/
theorem claim_C9_round_trip (v : NDArr) (h : ℚ) (k : ℕ)
    (hh : 0 < h) (hk : 1 ≤ k) :
    (upsample_hold_last v ((k : ℚ) * h) h).bind
      (fun y => downsample y h ((k : ℚ) * h) .mean) = .ok v := by
  by_cases hk1 : k = 1
  · subst hk1
    have h1 : upsample_hold_last v (((1 : ℕ) : ℚ) * h) h = .ok v := by
      unfold upsample_hold_last
      rw [validate_factor_mul h 1 hh le_rfl, ok_bind, if_pos rfl]
    rw [h1, ok_bind]
    unfold downsample
    rw [validate_factor_mul h 1 hh le_rfl, ok_bind, if_pos rfl]
  · have hk2 : 2 ≤ k := by omega
    rw [upsample_mul_eq v h k hh hk2]
    cases v with
    | one l =>
        simp only [Except.bind]
        exact downsample_flatMap_one l h k hh hk2
    | two m =>
        simp only [Except.bind]
        exact downsample_flatMap_two m h k hh hk2

/--
C9 witness: the round trip evaluated at the concrete 1-D array `[1, 2]`
with hop `1/100` and factor `2`: upsampling gives `[1, 1, 2, 2]` and the
mean-aggregated downsample returns `[1, 2]`.
-/
theorem claim_C9_round_trip_witness :
    (0 : ℚ) < 1 / 100 ∧ (1 : ℕ) ≤ 2 ∧
      (upsample_hold_last (.one [1, 2]) ((2 : ℚ) * (1 / 100)) (1 / 100)).bind
        (fun y => downsample y (1 / 100) ((2 : ℚ) * (1 / 100)) .mean) = .ok (.one [1, 2]) :=
  ⟨by norm_num, by norm_num,
    claim_C9_round_trip (.one [1, 2]) (1 / 100) 2 (by norm_num) (by norm_num)⟩

end Dyana

namespace Dyana

/--
C4: `to_canonical_grid` returns a copy of the input when the source hop
equals the canonical 10 ms hop, dispatches to zero-order-hold upsampling
(each frame repeated `k` times) when the source hop is `k ≥ 2` times
coarser, refuses to downsample without an explicit aggregation mode, and
dispatches to block-aggregation downsampling when the source hop is finer
and an aggregation mode is given.  (In the source this function can never
run: `resample.py` line 10 imports `CANONICAL_HOP_SECONDS` from
`dyana.core.timebase`, which defines only `CANONICAL_HOP_S`; the theorem
is about the intended constant `1/100`.)
-/
theorem claim_C4_to_canonical_grid (v : NDArr) (sem : String) (agg : Option Agg)
    (k : ℕ) (hk : 2 ≤ k) (a : Agg) :
    to_canonical_grid v CANONICAL_HOP_SECONDS sem agg = .ok v ∧
    to_canonical_grid v ((k : ℚ) * CANONICAL_HOP_SECONDS) sem agg =
      upsample_hold_last v ((k : ℚ) * CANONICAL_HOP_SECONDS) CANONICAL_HOP_SECONDS ∧
    to_canonical_grid v ((k : ℚ) * CANONICAL_HOP_SECONDS) sem agg =
      .ok (match v with
           | .one l => .one (l.flatMap (List.replicate k))
           | .two m => .two (m.flatMap (List.replicate k))) ∧
    to_canonical_grid v (CANONICAL_HOP_SECONDS / (k : ℚ)) sem none =
      .error "downsample_agg must be provided when downsampling to canonical grid" ∧
    to_canonical_grid v (CANONICAL_HOP_SECONDS / (k : ℚ)) sem (some a) =
      downsample v (CANONICAL_HOP_SECONDS / (k : ℚ)) CANONICAL_HOP_SECONDS a := by
  have hc : (0 : ℚ) < CANONICAL_HOP_SECONDS := by norm_num [CANONICAL_HOP_SECONDS]
  have hk2 : (2 : ℚ) ≤ (k : ℚ) := by exact_mod_cast hk
  have hlt : CANONICAL_HOP_SECONDS < (k : ℚ) * CANONICAL_HOP_SECONDS := by nlinarith
  have hne : ¬ ((k : ℚ) * CANONICAL_HOP_SECONDS = CANONICAL_HOP_SECONDS) :=
    ne_of_gt hlt
  have hlt' : CANONICAL_HOP_SECONDS / (k : ℚ) < CANONICAL_HOP_SECONDS :=
    div_lt_self hc (by linarith)
  have hne' : ¬ (CANONICAL_HOP_SECONDS / (k : ℚ) = CANONICAL_HOP_SECONDS) :=
    ne_of_lt hlt'
  have hnlt : ¬ (CANONICAL_HOP_SECONDS < CANONICAL_HOP_SECONDS / (k : ℚ)) :=
    not_lt.mpr (le_of_lt hlt')
  have hdisp : to_canonical_grid v ((k : ℚ) * CANONICAL_HOP_SECONDS) sem agg =
      upsample_hold_last v ((k : ℚ) * CANONICAL_HOP_SECONDS) CANONICAL_HOP_SECONDS := by
    unfold to_canonical_grid
    rw [if_neg hne, if_pos hlt]
  refine ⟨?_, hdisp, ?_, ?_, ?_⟩
  · unfold to_canonical_grid
    rw [if_pos rfl]
  · rw [hdisp]
    exact upsample_mul_eq v CANONICAL_HOP_SECONDS k hc hk
  · unfold to_canonical_grid
    rw [if_neg hne', if_neg hnlt]
  · unfold to_canonical_grid
    rw [if_neg hne', if_neg hnlt]

/--
C4 witness: concrete dispatch of `to_canonical_grid` at factor 2: a 20 ms
source hop repeats each value twice, and a 5 ms source hop with mean
aggregation is routed to `downsample`.
-/
theorem claim_C4_to_canonical_grid_witness :
    2 ≤ 2 ∧
      to_canonical_grid (.one [1, 2]) (((2 : ℕ) : ℚ) * CANONICAL_HOP_SECONDS)
          "probability" none = .ok (.one [1, 1, 2, 2]) ∧
      to_canonical_grid (.one [1, 1, 2, 2]) (CANONICAL_HOP_SECONDS / ((2 : ℕ) : ℚ))
          "probability" (some .mean) =
        downsample (.one [1, 1, 2, 2]) (CANONICAL_HOP_SECONDS / ((2 : ℕ) : ℚ))
          CANONICAL_HOP_SECONDS .mean := by
  refine ⟨by norm_num, ?_, ?_⟩
  · exact (claim_C4_to_canonical_grid (.one [1, 2]) "probability" none 2
      (by norm_num) .mean).2.2.1
  · exact (claim_C4_to_canonical_grid (.one [1, 1, 2, 2]) "probability" none 2
      (by norm_num) .mean).2.2.2.2

end Dyana

namespace Dyana

/-! ## Fusion lemmas (claims C6 and C8) -/

lemma clipQ_one_sub (x : ℚ) : clipQ (1 - x) = 1 - clipQ x := by
  simp only [clipQ, LOG_EPS]
  rcases le_total x (1 / 1000000) with h | h
  · rw [min_eq_left (by linarith : (1 : ℚ) - 1 / 1000000 ≤ 1 - x),
      max_eq_right (by norm_num : (1 : ℚ) / 1000000 ≤ 1 - 1 / 1000000),
      min_eq_right (by linarith : x ≤ (1 : ℚ) - 1 / 1000000),
      max_eq_left h]
  · rcases le_total x (1 - 1 / 1000000) with h2 | h2
    · rw [min_eq_right (by linarith : (1 : ℚ) - x ≤ 1 - 1 / 1000000),
        max_eq_right (by linarith : (1 : ℚ) / 1000000 ≤ 1 - x),
        min_eq_right h2, max_eq_right h]
    · rw [min_eq_right (by linarith : (1 : ℚ) - x ≤ 1 - 1 / 1000000),
        max_eq_left (by linarith : (1 : ℚ) - x ≤ 1 / 1000000),
        min_eq_left h2, max_eq_right (by norm_num : (1 : ℚ) / 1000000 ≤ 1 - 1 / 1000000)]
      ring

lemma clipQ_half : clipQ (1 / 2) = 1 / 2 := by
  unfold clipQ LOG_EPS
  rw [min_eq_right (by norm_num), max_eq_right (by norm_num)]

lemma getD_replicate {α : Type} (x d : α) {n t : ℕ} (h : t < n) :
    (List.replicate n x).getD t d = x := by
  rw [List.getD_eq_getElem?_getD, List.getElem?_replicate]
  simp [h]

lemma check_timebases_vad (p : List ℚ) :
    check_timebases ⟨CANONICAL_HOP_SECONDS, none,
      [("vad", ⟨CANONICAL_HOP_SECONDS, .one p, "probability"⟩)]⟩ = .ok p.length := by
  have hcan : is_canonical_hop CANONICAL_HOP_SECONDS = true := by decide
  unfold check_timebases
  simp [hcan, shape0, check_tracks]

end Dyana

namespace Dyana

/--
C6 counterexample: fusing an *empty* evidence bundle does not always fail.
When the bundle timebase carries a frame count (`n_frames = 1` here), the
empty-bundle check in `_check_timebases` is satisfied by the timebase
itself and fusion succeeds, returning the neutral-default scores
(`OVL_BONUS` for OVL, `LEAK_BASELINE_PENALTY` for LEAK, and zero
elsewhere when `log ≡ 0`).
-/
theorem claim_C6_counterexample :
    fuse_bundle_to_scores (fun _ => 0) (fun _ => 0)
        ⟨CANONICAL_HOP_SECONDS, some 1, []⟩ =
      .ok [⟨0, 0, 0, OVL_BONUS, LEAK_BASELINE_PENALTY⟩] := by rfl

/--
C6 (amended): fusing an empty evidence bundle fails with an error when the
bundle timebase does not fix a frame count; and fusing a canonical bundle
containing only a `vad` probability track of length `T` returns a `(T, 5)`
score array in which, with `p` the vad probability clipped to
`[1e-6, 1 - 1e-6]` and the missing-track neutral defaults
`p_a = p_b = 0.5`, `log p_leak = 0`:
`score[SIL] = log (1 - p)`, `score[A] = score[B] = log p + log (1/2)`,
`score[OVL] = log p + 1.5·(log (1/2) + log (1/2)) + 0.4`, and
`score[LEAK] = 0.5·log (1 - p) - 3`.  The identity holds for an arbitrary
logarithm function `logf`.
-/
theorem claim_C6_fusion_vad_only (logf sigf : ℚ → ℚ) (p : List ℚ) :
    fuse_bundle_to_scores logf sigf ⟨CANONICAL_HOP_SECONDS, none, []⟩ =
      .error "EvidenceBundle is empty; cannot fuse without tracks." ∧
    fuse_bundle_to_scores logf sigf
        ⟨CANONICAL_HOP_SECONDS, none,
          [("vad", ⟨CANONICAL_HOP_SECONDS, .one p, "probability"⟩)]⟩ =
      .ok ((List.range p.length).map fun t =>
        { sil := logf (1 - clipQ (p.getD t 0))
          a := logf (clipQ (p.getD t 0)) + logf (1 / 2)
          b := logf (clipQ (p.getD t 0)) + logf (1 / 2)
          ovl := logf (clipQ (p.getD t 0)) + (3 / 2) * (logf (1 / 2) + logf (1 / 2)) + 2 / 5
          leak := (1 / 2) * logf (1 - clipQ (p.getD t 0)) - 3 }) := by
  constructor
  · rfl
  · unfold fuse_bundle_to_scores
    rw [check_timebases_vad p, ok_bind]
    show Except.ok ((List.range p.length).map fun t =>
        ({ sil := W_SPEECH * logf (clipQ (1 - p.getD t 0))
           a := W_SPEECH * logf (clipQ (p.getD t 0)) +
             W_DIAR * logf (clipQ ((List.replicate p.length ((1 : ℚ) / 2)).getD t 0)) +
             W_PRIOR * 0
           b := W_SPEECH * logf (clipQ (p.getD t 0)) +
             W_DIAR * logf (clipQ ((List.replicate p.length ((1 : ℚ) / 2)).getD t 0)) +
             W_PRIOR * 0
           ovl := W_SPEECH * logf (clipQ (p.getD t 0)) +
             W_OVL * (logf (clipQ ((List.replicate p.length ((1 : ℚ) / 2)).getD t 0)) +
               logf (clipQ ((List.replicate p.length ((1 : ℚ) / 2)).getD t 0))) +
             OVL_BONUS
           leak := W_LEAK * 0 + W_LEAK_SIL_BIAS * logf (clipQ (1 - p.getD t 0)) +
             LEAK_BASELINE_PENALTY } : ScoreRow)) = _
    refine congrArg Except.ok ?_
    apply List.map_congr_left
    intro t ht
    have htl : t < p.length := List.mem_range.mp ht
    rw [getD_replicate ((1 : ℚ) / 2) 0 htl, clipQ_half, clipQ_one_sub]
    simp only [W_SPEECH, W_DIAR, W_OVL, W_LEAK, W_LEAK_SIL_BIAS, W_PRIOR, OVL_BONUS,
      LEAK_BASELINE_PENALTY, ScoreRow.mk.injEq]
    refine ⟨by ring, by ring, by ring, by ring, by ring⟩

end Dyana

namespace Dyana

lemma check_timebases_vad_prior (p : List ℚ) (pv : NDArr) (psem : String) :
    check_timebases ⟨CANONICAL_HOP_SECONDS, none,
        [("vad", ⟨CANONICAL_HOP_SECONDS, .one p, "probability"⟩),
         ("prior_ab", ⟨CANONICAL_HOP_SECONDS, pv, psem⟩)]⟩ =
      if shape0 pv = p.length then .ok p.length
      else .error "Track length mismatches bundle length." := by
  have hcan : is_canonical_hop CANONICAL_HOP_SECONDS = true := by decide
  unfold check_timebases
  by_cases hsh : shape0 pv = p.length <;>
    simp [hcan, check_tracks, hsh, show shape0 (NDArr.one p) = p.length from rfl]

lemma fuse_vad_prior_reduce (logf sigf : ℚ → ℚ) (p : List ℚ) (pv : NDArr)
    (hlen : shape0 pv = p.length) :
    fuse_bundle_to_scores logf sigf
        ⟨CANONICAL_HOP_SECONDS, none,
          [("vad", ⟨CANONICAL_HOP_SECONDS, .one p, "probability"⟩),
           ("prior_ab", ⟨CANONICAL_HOP_SECONDS, pv, "score"⟩)]⟩ =
      (parse_prior p.length (some ⟨CANONICAL_HOP_SECONDS, pv, "score"⟩)).bind
        fun prior =>
          .ok ((List.range p.length).map fun t =>
            ({ sil := W_SPEECH * logf (clipQ (1 - p.getD t 0))
               a := W_SPEECH * logf (clipQ (p.getD t 0)) +
                 W_DIAR * logf (clipQ ((List.replicate p.length ((1 : ℚ) / 2)).getD t 0)) +
                 W_PRIOR * prior.1 t
               b := W_SPEECH * logf (clipQ (p.getD t 0)) +
                 W_DIAR * logf (clipQ ((List.replicate p.length ((1 : ℚ) / 2)).getD t 0)) +
                 W_PRIOR * prior.2 t
               ovl := W_SPEECH * logf (clipQ (p.getD t 0)) +
                 W_OVL * (logf (clipQ ((List.replicate p.length ((1 : ℚ) / 2)).getD t 0)) +
                   logf (clipQ ((List.replicate p.length ((1 : ℚ) / 2)).getD t 0))) +
                 OVL_BONUS
               leak := W_LEAK * 0 +
                 W_LEAK_SIL_BIAS * logf (clipQ (1 - p.getD t 0)) +
                 LEAK_BASELINE_PENALTY } : ScoreRow)) := by
  unfold fuse_bundle_to_scores
  rw [check_timebases_vad_prior, if_pos hlen, ok_bind]
  rfl

end Dyana

namespace Dyana

/--
C8 counterexample: a `prior_ab` track of shape `(2,)` (constant A/B
offsets) is *not* accepted whenever the bundle length differs from 2:
`_check_timebases` compares every track's first dimension with the bundle
length, so a length-3 bundle with a `(2,)` prior fails before the prior
shape logic runs.  This refutes the claim that shape `(2,)` is accepted.
-/
theorem claim_C8_counterexample :
    fuse_bundle_to_scores (fun _ => 0) (fun _ => 0)
        ⟨CANONICAL_HOP_SECONDS, none,
          [("vad", ⟨CANONICAL_HOP_SECONDS, .one [1/2, 1/2, 1/2], "probability"⟩),
           ("prior_ab", ⟨CANONICAL_HOP_SECONDS, .one [1, 2], "score"⟩)]⟩ =
      .error "Track length mismatches bundle length." := by rfl

/--
C8 (amended): in a canonical bundle with a `vad` probability track of
length `T` and a `prior_ab` track with semantics `score`:
a 1-D prior first passes through the bundle length check, so it is
rejected unless its length equals `T`; a 1-D prior of the bundle length is
accepted when that length is 1 (one offset broadcast to A and B) or 2
(A/B offsets, only possible when `T = 2`) and rejected otherwise; a 2-D
prior of shape `(T, K)` is accepted exactly when `K = 2`.  In particular
the constant shape-`(2,)` prior of the claim is only accepted in bundles
of length 2, and shape `(1,)` is accepted in bundles of length 1.
-/
theorem claim_C8_prior_shapes (logf sigf : ℚ → ℚ) (p l : List ℚ) (m : List (List ℚ)) :
    (l.length ≠ p.length →
      fuse_bundle_to_scores logf sigf
          ⟨CANONICAL_HOP_SECONDS, none,
            [("vad", ⟨CANONICAL_HOP_SECONDS, .one p, "probability"⟩),
             ("prior_ab", ⟨CANONICAL_HOP_SECONDS, .one l, "score"⟩)]⟩ =
        .error "Track length mismatches bundle length.") ∧
    (l.length = p.length → l.length ≠ 1 → l.length ≠ 2 →
      fuse_bundle_to_scores logf sigf
          ⟨CANONICAL_HOP_SECONDS, none,
            [("vad", ⟨CANONICAL_HOP_SECONDS, .one p, "probability"⟩),
             ("prior_ab", ⟨CANONICAL_HOP_SECONDS, .one l, "score"⟩)]⟩ =
        .error "prior_ab 1-D values must be length 1 or 2.") ∧
    (l.length = p.length → l.length = 1 ∨ l.length = 2 →
      exceptOk (fuse_bundle_to_scores logf sigf
          ⟨CANONICAL_HOP_SECONDS, none,
            [("vad", ⟨CANONICAL_HOP_SECONDS, .one p, "probability"⟩),
             ("prior_ab", ⟨CANONICAL_HOP_SECONDS, .one l, "score"⟩)]⟩) = true) ∧
    (m.length = p.length → cols (.two m) ≠ 2 →
      fuse_bundle_to_scores logf sigf
          ⟨CANONICAL_HOP_SECONDS, none,
            [("vad", ⟨CANONICAL_HOP_SECONDS, .one p, "probability"⟩),
             ("prior_ab", ⟨CANONICAL_HOP_SECONDS, .two m, "score"⟩)]⟩ =
        .error "prior_ab must have shape Tx2 or 2 for A/B offsets.") ∧
    (m.length = p.length → cols (.two m) = 2 →
      exceptOk (fuse_bundle_to_scores logf sigf
          ⟨CANONICAL_HOP_SECONDS, none,
            [("vad", ⟨CANONICAL_HOP_SECONDS, .one p, "probability"⟩),
             ("prior_ab", ⟨CANONICAL_HOP_SECONDS, .two m, "score"⟩)]⟩) = true) := by
  refine ⟨?_, ?_, ?_, ?_, ?_⟩
  · intro hne
    unfold fuse_bundle_to_scores
    rw [check_timebases_vad_prior, if_neg (by simpa [shape0] using hne)]
    rfl
  · intro hlen h1 h2
    rw [fuse_vad_prior_reduce logf sigf p (.one l) (by simpa [shape0] using hlen)]
    have hp : parse_prior p.length (some ⟨CANONICAL_HOP_SECONDS, .one l, "score"⟩) =
        .error "prior_ab 1-D values must be length 1 or 2." := by
      simp [parse_prior, h1, h2]
    rw [hp]
    rfl
  · intro hlen h12
    rw [fuse_vad_prior_reduce logf sigf p (.one l) (by simpa [shape0] using hlen)]
    rcases h12 with h1 | h2
    · have hp : parse_prior p.length (some ⟨CANONICAL_HOP_SECONDS, .one l, "score"⟩) =
          .ok (fun _ => l.getD 0 0, fun _ => l.getD 0 0) := by
        simp [parse_prior, h1]
      rw [hp]
      rfl
    · have hp : parse_prior p.length (some ⟨CANONICAL_HOP_SECONDS, .one l, "score"⟩) =
          .ok (fun _ => l.getD 0 0, fun _ => l.getD 1 0) := by
        simp [parse_prior, h2]
      rw [hp]
      rfl
  · intro hlen hcols
    rw [fuse_vad_prior_reduce logf sigf p (.two m) (by simpa [shape0] using hlen)]
    have hp : parse_prior p.length (some ⟨CANONICAL_HOP_SECONDS, .two m, "score"⟩) =
        .error "prior_ab must have shape Tx2 or 2 for A/B offsets." := by
      simp [parse_prior, hcols]
    rw [hp]
    rfl
  · intro hlen hcols
    rw [fuse_vad_prior_reduce logf sigf p (.two m) (by simpa [shape0] using hlen)]
    have hp : parse_prior p.length (some ⟨CANONICAL_HOP_SECONDS, .two m, "score"⟩) =
        .ok (fun t => (m.getD t []).getD 0 0, fun t => (m.getD t []).getD 1 0) := by
      simp [parse_prior, hcols, hlen]
    rw [hp]
    rfl

end Dyana

namespace Dyana

/-! ## Boundary-F1 lemmas (claim C7)

For identical (sorted) inputs the greedy matcher pairs each hypothesis
boundary with the reference boundary at its own index: earlier indices are
already used, the own index is at distance zero, and Python `min` takes
the first minimum. -/

lemma getD_mkUsed_lt (i n j : ℕ) (hj : j < i) :
    ((List.replicate i true ++ List.replicate (n - i) false).getD j false) = true := by
  rw [List.getD_append _ _ _ _ (by simpa using hj)]
  exact getD_replicate true false hj

lemma getD_mkUsed_ge (i n j : ℕ) (hj : i ≤ j) :
    ((List.replicate i true ++ List.replicate (n - i) false).getD j false) = false := by
  by_cases hjn : j < n
  · rw [List.getD_append_right _ _ _ _ (by simpa using hj)]
    simp only [List.length_replicate]
    exact getD_replicate false false (by omega)
  · apply List.getD_eq_default
    simp
    omega

lemma filter_range_cons (n i : ℕ) (p : ℕ → Bool) (hi : i < n) (hpi : p i = true)
    (hlow : ∀ j, j < i → p j = false) :
    ∃ cs, (List.range n).filter p = i :: cs := by
  obtain ⟨m, rfl⟩ : ∃ m, n = i + m := ⟨n - i, by omega⟩
  rw [List.range_add, List.filter_append]
  have h1 : (List.range i).filter p = [] := by
    apply List.filter_eq_nil_iff.mpr
    intro a ha
    simp [hlow a (List.mem_range.mp ha)]
  obtain ⟨m', rfl⟩ : ∃ m', m = m' + 1 := ⟨m - 1, by omega⟩
  rw [h1, List.nil_append, List.range_succ_eq_map, List.map_cons]
  rw [List.filter_cons_of_pos (by simpa using hpi)]
  exact ⟨_, rfl⟩

lemma foldl_pick_zero (r : List ℚ) (x : ℚ) (c : ℕ) (hc : |r.getD c 0 - x| = 0) :
    ∀ cs : List ℕ,
      cs.foldl (fun best i => if |r.getD i 0 - x| < |r.getD best 0 - x| then i else best) c = c := by
  intro cs
  induction cs with
  | nil => rfl
  | cons j js ih =>
      simp only [List.foldl_cons]
      rw [if_neg (by rw [hc]; exact not_lt.mpr (abs_nonneg _))]
      exact ih

lemma set_mkUsed : ∀ (i n : ℕ), i < n →
    (List.replicate i true ++ List.replicate (n - i) false).set i true =
      List.replicate (i + 1) true ++ List.replicate (n - (i + 1)) false := by
  intro i
  induction i with
  | zero =>
      intro n hn
      obtain ⟨m, rfl⟩ : ∃ m, n = m + 1 := ⟨n - 1, by omega⟩
      simp only [List.replicate_zero, List.nil_append, Nat.sub_zero, Nat.add_sub_cancel]
      rw [List.replicate_succ, List.set_cons_zero, List.replicate_succ]
      rfl
  | succ i ih =>
      intro n hn
      obtain ⟨m, rfl⟩ : ∃ m, n = m + 1 := ⟨n - 1, by omega⟩
      have h1 : m + 1 - (i + 1) = m - i := by omega
      have h2 : m + 1 - (i + 1 + 1) = m - (i + 1) := by omega
      rw [h1, h2]
      rw [show List.replicate (i + 1) true = true :: List.replicate i true from
        List.replicate_succ true i]
      rw [List.cons_append, List.set_cons_succ, ih m (by omega)]
      rw [show List.replicate (i + 1 + 1) true = true :: List.replicate (i + 1) true from
        List.replicate_succ true (i + 1)]
      rfl

lemma bf1_pick_self (s : List ℚ) (tol : ℚ) (htol : 0 ≤ tol) (i : ℕ) (hi : i < s.length) :
    bf1_pick s (List.replicate i true ++ List.replicate (s.length - i) false) tol
      (s.getD i 0) = some i := by
  have hpi : (fun j => decide (|s.getD j 0 - s.getD i 0| ≤ tol) &&
      !((List.replicate i true ++ List.replicate (s.length - i) false).getD j false)) i = true := by
    simp only [getD_mkUsed_ge i s.length i le_rfl, Bool.not_false, Bool.and_true,
      decide_eq_true_iff, sub_self, abs_zero]
    exact htol
  have hlow : ∀ j, j < i →
      (fun j => decide (|s.getD j 0 - s.getD i 0| ≤ tol) &&
        !((List.replicate i true ++ List.replicate (s.length - i) false).getD j false)) j = false := by
    intro j hj
    simp only [getD_mkUsed_lt i s.length j hj, Bool.not_true, Bool.and_false]
  obtain ⟨cs, hcs⟩ := filter_range_cons s.length i _ hi hpi hlow
  unfold bf1_pick bf1_candidates
  rw [hcs]
  show some (cs.foldl (fun best j =>
    if |s.getD j 0 - s.getD i 0| < |s.getD best 0 - s.getD i 0| then j else best) i) = some i
  rw [foldl_pick_zero s (s.getD i 0) i (by simp) cs]

lemma bf1_loop_diag (s : List ℚ) (tol : ℚ) (htol : 0 ≤ tol) :
    ∀ (k i : ℕ), i + k = s.length →
      (bf1_loop s tol (s.drop i)
        (List.replicate i true ++ List.replicate (s.length - i) false) i).2 = s.length := by
  intro k
  induction k with
  | zero =>
      intro i hi
      rw [List.drop_eq_nil_of_le (by omega)]
      show i = s.length
      omega
  | succ k ih =>
      intro i hi
      have hilt : i < s.length := by omega
      rw [List.drop_eq_getElem_cons hilt]
      have hget : s[i] = s.getD i 0 := (List.getD_eq_getElem s 0 hilt).symm
      rw [hget]
      unfold bf1_loop
      rw [bf1_pick_self s tol htol i hilt]
      show (bf1_loop s tol (s.drop (i + 1))
        ((List.replicate i true ++ List.replicate (s.length - i) false).set i true) (i + 1)).2 =
          s.length
      rw [set_mkUsed i s.length hilt]
      exact ih (i + 1) (by omega)

end Dyana

namespace Dyana

lemma boundary_f1_self (l : List ℚ) (tol : ℚ) (hl : l ≠ []) (htol : 0 ≤ tol) :
    boundary_f1 l l tol = ⟨1, 1, 1, l.length, 0, 0⟩ := by
  have hlen : (sortQ l).length = l.length := by simp [sortQ]
  have hloop := bf1_loop_diag (sortQ l) tol htol (sortQ l).length 0 (by omega)
  simp only [List.drop_zero, List.replicate_zero, List.nil_append, Nat.sub_zero,
    hlen] at hloop
  have hpos : 0 < l.length := List.length_pos.mpr hl
  have hq : (l.length : ℚ) ≠ 0 := Nat.cast_ne_zero.mpr (by omega)
  unfold boundary_f1
  simp only [hlen, hloop, Nat.sub_self, Nat.add_zero]
  simp only [if_pos hpos, div_self hq]
  norm_num

/-- Claim C7. The original claim fails at the empty pair: `boundary_f1`
computes precision = recall = 0 there (all the `0 < _` guards are false),
so f1 = 0.0, not the claimed 1.0 convention. This theorem records the
actual behaviour: identical non-empty inputs give
precision = recall = f1 = 1 with tp = length, fp = fn = 0 (each
hypothesis boundary greedily matches the reference boundary at its own
index), while the both-empty call returns the all-zero record. -/
theorem claim_C7_boundary_f1 :
    (∀ (l : List ℚ) (tol : ℚ), l ≠ [] → 0 ≤ tol →
      boundary_f1 l l tol = ⟨1, 1, 1, l.length, 0, 0⟩) ∧
    (∀ tol : ℚ, boundary_f1 [] [] tol = ⟨0, 0, 0, 0, 0, 0⟩) :=
  ⟨boundary_f1_self, fun tol => by
    simp [boundary_f1, sortQ, List.mergeSort_nil, bf1_loop]⟩

/-- Claim C7, counterexample to the stated convention: on two empty
boundary arrays the function returns f1 = 0, not 1. -/
theorem claim_C7_counterexample : (boundary_f1 [] [] (1 / 20)).f1 ≠ 1 := by
  have h : boundary_f1 [] [] (1 / 20) = ⟨0, 0, 0, 0, 0, 0⟩ := by
    simp [boundary_f1, sortQ, List.mergeSort_nil, bf1_loop]
  rw [h]
  norm_num

/-- Claim C7, witness: the non-empty branch evaluated at a concrete
identical pair. -/
theorem claim_C7_boundary_f1_witness :
    boundary_f1 [1 / 10, 1 / 2] [1 / 10, 1 / 2] (1 / 20) = ⟨1, 1, 1, 2, 0, 0⟩ :=
  claim_C7_boundary_f1.1 [1 / 10, 1 / 2] (1 / 20) (by decide) (by norm_num)

end Dyana

namespace Dyana

/-- Claim C10. `EvidenceTrack.__post_init__` rejects a values array whose
first dimension is zero (`values.shape[0] <= 0` raises), and consequently
every successfully constructed track has at least one frame. -/
theorem claim_C10_evidence_nonempty :
    (∀ (name : String) (hop : ℚ) (nFrames : Option ℕ) (values : NDArr)
        (semantics : String) (confidence : Option NDArr),
      shape0 values = 0 →
      exceptOk (mk_evidence_track name hop nFrames values semantics confidence) = false) ∧
    (∀ (name : String) (hop : ℚ) (nFrames : Option ℕ) (values : NDArr)
        (semantics : String) (confidence : Option NDArr) (t : EvidenceTrackV),
      mk_evidence_track name hop nFrames values semantics confidence = .ok t →
      0 < shape0 t.values) := by
  constructor
  · intro name hop nFrames values semantics confidence h0
    unfold mk_evidence_track
    by_cases hs : semantics ∉ SEMANTICS_VALUES
    · rw [if_pos hs]; rfl
    · rw [if_neg hs, if_pos h0]; rfl
  · intro name hop nFrames values semantics confidence t ht
    by_cases h0 : shape0 values = 0
    · exfalso
      unfold mk_evidence_track at ht
      by_cases hs : semantics ∉ SEMANTICS_VALUES
      · rw [if_pos hs] at ht; exact Except.noConfusion ht
      · rw [if_neg hs, if_pos h0] at ht; exact Except.noConfusion ht
    · unfold mk_evidence_track at ht
      repeat' split at ht
      all_goals first
        | exact Except.noConfusion ht
        | (cases ht; exact Nat.pos_of_ne_zero h0)

/-- Claim C10, witness: a zero-frame values array is rejected, and a
concrete one-frame probability track is accepted with a positive frame
count. -/
theorem claim_C10_evidence_nonempty_witness :
    exceptOk (mk_evidence_track "vad" (1 / 100) none (NDArr.one [])
      "probability" none) = false ∧
    0 < shape0 (EvidenceTrackV.mk "vad" (1 / 100) none (NDArr.one [1 / 2])
      "probability" none).values :=
  ⟨claim_C10_evidence_nonempty.1 "vad" (1 / 100) none (NDArr.one [])
      "probability" none rfl,
   claim_C10_evidence_nonempty.2 "vad" (1 / 100) none (NDArr.one [1 / 2])
      "probability" none
      ⟨"vad", 1 / 100, none, NDArr.one [1 / 2], "probability", none⟩ rfl⟩

end Dyana

namespace Dyana

/-- Claim C8, witness: a length-3 bundle rejects a `(3,)` prior, a
length-1 bundle accepts a `(1,)` prior, and a length-2 bundle accepts a
`(2, 2)` prior. -/
theorem claim_C8_prior_shapes_witness :
    (fuse_bundle_to_scores (fun _ => 0) (fun _ => 0)
        ⟨CANONICAL_HOP_SECONDS, none,
          [("vad", ⟨CANONICAL_HOP_SECONDS, .one [1/2, 1/2, 1/2], "probability"⟩),
           ("prior_ab", ⟨CANONICAL_HOP_SECONDS, .one [1, 2, 3], "score"⟩)]⟩ =
      .error "prior_ab 1-D values must be length 1 or 2.") ∧
    exceptOk (fuse_bundle_to_scores (fun _ => 0) (fun _ => 0)
        ⟨CANONICAL_HOP_SECONDS, none,
          [("vad", ⟨CANONICAL_HOP_SECONDS, .one [1/2], "probability"⟩),
           ("prior_ab", ⟨CANONICAL_HOP_SECONDS, .one [7], "score"⟩)]⟩) = true ∧
    exceptOk (fuse_bundle_to_scores (fun _ => 0) (fun _ => 0)
        ⟨CANONICAL_HOP_SECONDS, none,
          [("vad", ⟨CANONICAL_HOP_SECONDS, .one [1/2, 1/2], "probability"⟩),
           ("prior_ab", ⟨CANONICAL_HOP_SECONDS, .two [[1, 2], [3, 4]], "score"⟩)]⟩) =
      true :=
  ⟨(claim_C8_prior_shapes (fun _ => 0) (fun _ => 0)
      [1/2, 1/2, 1/2] [1, 2, 3] []).2.1 rfl (by decide) (by decide),
   (claim_C8_prior_shapes (fun _ => 0) (fun _ => 0)
      [1/2] [7] []).2.2.1 rfl (Or.inl rfl),
   (claim_C8_prior_shapes (fun _ => 0) (fun _ => 0)
      [1/2, 1/2] [] [[1, 2], [3, 4]]).2.2.2.2 rfl rfl⟩

end Dyana

namespace Dyana

/--
Claim C1. On the spec's easy-tier guardrail scenario (baseline
`boundary_f1_20ms = 0.90`, `micro_ipus_per_min = 1.0`,
`switches_per_min = 2.0`; current `0.70, 2.0, 4.0`) the claim expects a
report with `failed = true` and failures naming the boundary-drop and
switch-increase guardrails.  The source `compute_delta_report` returns a
dict with only `params`, `baseline`, `rows`, `summary` and `warnings` —
it never creates `failed` or `failures` (so `tune.run`, which gates its
non-zero exit on `report.get("failed")`, can never fail), its guardrails
are demoted to warning strings with factor 1.20 rather than 1.25, only
`boundary_f1_20` is checked (never the 50 ms delta), and the keys it
reads (`boundary_f1_20`, `speaker_switches_per_min`) are absent from
rows keyed the way the scenario writes them, so those lookups default to
0.0.  This theorem evaluates the embedded report on that scenario: the
boundary and switch deltas come out as `(0, 0, 0)` triples, and the only
guardrail that fires is the micro-IPU warning.
-/
theorem claim_C1_delta_report_guardrails :
    compute_delta_report
        [ScRow.mk "e1" "easy"
          [("boundary_f1_20ms", 9 / 10), ("micro_ipus_per_min", 1), ("switches_per_min", 2)]]
        [ScRow.mk "e1" "easy"
          [("boundary_f1_20ms", 7 / 10), ("micro_ipus_per_min", 2), ("switches_per_min", 4)]] =
      ⟨[DeltaRow.mk "e1" "easy"
          [("boundary_f1_20", (0, 0, 0)), ("boundary_f1_50", (0, 0, 0)),
           ("micro_ipus_per_min", (1, 2, 1)), ("speaker_switches_per_min", (0, 0, 0))]],
        ["easy regression: micro-IPU rate increase too large for e1"]⟩ := by
  have hs : sorted_common_ids
      [ScRow.mk "e1" "easy"
        [("boundary_f1_20ms", 9 / 10), ("micro_ipus_per_min", 1), ("switches_per_min", 2)]]
      [ScRow.mk "e1" "easy"
        [("boundary_f1_20ms", 7 / 10), ("micro_ipus_per_min", 2), ("switches_per_min", 4)]] =
      ["e1"] := by
    unfold sorted_common_ids
    have h1 : (([ScRow.mk "e1" "easy"
        [("boundary_f1_20ms", 9 / 10), ("micro_ipus_per_min", 1),
         ("switches_per_min", 2)]].map (fun r => r.id)).filter
          (fun i => ([ScRow.mk "e1" "easy"
            [("boundary_f1_20ms", 7 / 10), ("micro_ipus_per_min", 2),
             ("switches_per_min", 4)]].map (fun r => r.id)).contains i)).dedup = ["e1"] := by
      decide
    rw [h1, List.mergeSort_singleton]
  unfold compute_delta_report
  rw [hs]
  decide

end Dyana
